import Mathlib

/-!
Verification development for the rusheb rhythm-gameplay simulation core.

The definitions below are a shallow embedding of the gameplay state machine
implemented in the GameCanvas component (src/unnamed/part_004, lines 378-1634)
together with the constants module (src/constants.ts) and the shared types
module (src/unnamed/part_003).

Modelling conventions:
- Numbers (times, durations, deltas, multipliers) are integers, in
  milliseconds where the source means milliseconds.  The source uses JS
  doubles; every comparison and arithmetic step the claims touch is exact
  on the integer inputs used, so nothing the claims decide depends on the
  fractional values a running clock could produce.
- String identifiers (note ids, input ids, key names) are modelled as Nat.
  Mutation-spawned notes receive fresh ids from a counter field; in the
  source they receive random strings whose only used property is uniqueness.
- Math.random calls that pick lanes for mutation-spawned notes are modelled
  by an explicit stream of choices (the rng field); each spawn consumes one
  entry.  This makes the randomness of handleNoteMutation visible to the
  determinism claims.
- Rendering-only state (particles, stars, floating texts, lane flashes,
  camera shake, falling keys, ripples, the y coordinate of a note) and
  audio-only state are omitted: no simulation branch reads them.
- JS Set objects (pressedInputs, activeHoldNoteIds) are modelled as lists
  without duplicates; add is cons (every add site is guarded so the element
  is absent), delete is filter.
- JS in-place object mutation of a note that sits in the note list is
  modelled by updating every list entry with the same id; all reachable
  states have pairwise distinct note ids, where the two coincide.
- Array.prototype.sort with the comparators used here is stable; taking the
  first element of the sorted candidate list is modelled as the leftmost
  minimal element under the strict order induced by the comparator.
- The source iterates the note list while handleNoteMutation may append to
  it and re-sort; spawned notes carry times at least 200ms in the future,
  so on time-sorted lists they are inserted strictly after the scan point
  and no branch of the current pass fires on them.  The passes below
  therefore fold over the snapshot of the list and merge the spawns, which
  yields the same state.
-/

namespace Rusheb

/-- Note kinds, from the NoteType enum of the types module.  CLICK is the Tap
of the spec, HOLD_CLICK the SyncTap. -/
inductive NoteType
  | CLICK
  | HOLD
  | MINE
  | HOLD_CLICK
deriving DecidableEq

/-- Per-note judgement state, from the hitState field of ActiveNote.
NONE is the Pending state of the spec. -/
inductive HitState
  | NONE
  | HIT
  | HOLDING
  | MISSED
deriving DecidableEq

/-- A runtime note: the ActiveNote interface of GameCanvas (a Note template
plus hitState and visible; the rendering coordinate y is omitted). -/
structure ActiveNote where
  id : Nat
  time : Int
  type : NoteType
  lane : Nat
  holdDuration : Option Int
  speedMultiplier : Option Int
  requireRelease : Option Bool
  mutationType : Option NoteType
  mutationCount : Option Nat
  hitState : HitState
  visible : Bool
deriving DecidableEq

/-- An authored note template, from the Note interface of the types module. -/
structure Note where
  id : Nat
  time : Int
  type : NoteType
  lane : Nat
  holdDuration : Option Int
  speedMultiplier : Option Int
  requireRelease : Option Bool
  mutationType : Option NoteType
  mutationCount : Option Nat
deriving DecidableEq

/-- Event channels, from the EventType enum of the types module. -/
inductive EventType
  | CAMERA_ZOOM
  | CAMERA_ROTATION
  | NOTES_OPACITY
  | NOTES_SPEED
  | TEXT_EFFECT
deriving DecidableEq

/-- A visual event, from the GameEvent interface (timing envelope only; the
TextEffect styling fields are rendering-only and omitted). -/
structure GameEvent where
  id : Nat
  time : Int
  type : EventType
  duration : Int
  value : Int
deriving DecidableEq

/-- A beatmap, from the Beatmap interface (the fields the round uses). -/
structure Beatmap where
  notes : List Note
  events : List GameEvent
  duration : Int
deriving DecidableEq

/-- Key-binding modes, from the KeyMode enum. -/
inductive KeyMode
  | ALL_KEYS
  | FOUR_KEYS
deriving DecidableEq

/-- The settings fields the simulation core reads (GameSettings). -/
structure GameSettings where
  practiceMode : Bool
  keyMode : KeyMode
  keyBindings : List Nat
deriving DecidableEq

/-- Score accumulator, from the score object of the GameCanvas state. -/
structure ScoreState where
  perfect : Nat
  good : Nat
  miss : Nat
  minesHit : Nat
  maxCombo : Nat
  score : Int
deriving DecidableEq

/-- The per-round mutable state of GameCanvas (stateRef.current), restricted
to the fields the simulation reads or writes. -/
structure GameState where
  currentTime : Int
  hasEnded : Bool
  isPaused : Bool
  notes : List ActiveNote
  events : List GameEvent
  score : ScoreState
  combo : Nat
  pressedInputs : List Nat
  activeHoldNoteIds : List Nat
  targetGlobalSpeedMultiplier : Int
  nextId : Nat
  rng : List Nat
deriving DecidableEq

/-! Constants from src/constants.ts. -/

def HIT_WINDOWS_PERFECT : Int := 90

def HIT_WINDOWS_GOOD : Int := 150

def HIT_WINDOWS_MISS : Int := 200

def SCORES_PERFECT : Int := 100

def SCORES_GOOD : Int := 50

def SCORES_MISS : Int := -30

def SCORES_MINE : Int := -100

/-! Generic helpers. -/

/-- Stable insertion of an element into a list sorted by an integer key: the
new element goes after every element with a key less than or equal to its
own, which is how a stable Array.prototype.sort places fresh elements. -/
def insertBy {α : Type} (key : α → Int) (x : α) : List α → List α
  | [] => [x]
  | y :: rest => if key x < key y then x :: y :: rest else y :: insertBy key x rest

/-- Stable sort by an integer key (models Array.prototype.sort with the
comparator a.time - b.time, which is stable in the host engines). -/
def sortBy {α : Type} (key : α → Int) (l : List α) : List α :=
  l.foldl (fun acc x => insertBy key x acc) []

/-- Sorting the note list by time (state.notes.sort in the source). -/
def sortByTime (l : List ActiveNote) : List ActiveNote :=
  sortBy (fun n => n.time) l

/-- In-place mutation of the note object with the given id, as seen through
the note list (see the modelling conventions above). -/
def updateNote (i : Nat) (f : ActiveNote → ActiveNote) (l : List ActiveNote) : List ActiveNote :=
  l.map (fun n => if n.id = i then f n else n)

/-! Hit-window policy (the candidate window of the processHit scan, lines
763-767, and the threshold chain of lines 819-825, over the constants of
src/constants.ts). -/

/-- Judgement categories of the hit-window policy. -/
inductive HitClass
  | perfect
  | good
  | missCand
  | notCandidate
deriving DecidableEq

/-- The classification of a signed press-to-note time delta: deltas beyond
the 200ms scan window never become candidates (lines 763-767); inside it the
threshold chain of lines 819-825 applies to the absolute delta. -/
def classify (d : Int) : HitClass :=
  if HIT_WINDOWS_MISS < |d| then HitClass.notCandidate
  else if |d| ≤ HIT_WINDOWS_PERFECT then HitClass.perfect
  else if |d| ≤ HIT_WINDOWS_GOOD then HitClass.good
  else HitClass.missCand

/-- The fixed score delta of each judgement category (a non-candidate has
none; 0 here). -/
def scoreForClass : HitClass → Int
  | HitClass.perfect => SCORES_PERFECT
  | HitClass.good => SCORES_GOOD
  | HitClass.missCand => SCORES_MISS
  | HitClass.notCandidate => 0

/-- The scoreAdd computation of processHit (lines 819-825) on the absolute
delta of the chosen candidate. -/
def scoreAddFor (minDiff : Int) : Int :=
  if minDiff ≤ HIT_WINDOWS_PERFECT then SCORES_PERFECT
  else if minDiff ≤ HIT_WINDOWS_GOOD then SCORES_GOOD
  else SCORES_MISS

/-! Mutation (handleNoteMutation, lines 626-649). -/

/-- The effective spawn count: mutationCount || 1 in the source, so a
missing or zero count becomes 1. -/
def effMutationCount (n : ActiveNote) : Nat :=
  match n.mutationCount with
  | none => 1
  | some c => if c = 0 then 1 else c

/-- The notes spawned by one mutation: count notes of the mutation kind,
spaced 200ms apart starting 200ms after the current song time, each lane
drawn from the random stream (Math.floor(Math.random()*4)), fresh ids.
Fields the source leaves undefined are none. -/
def spawnNotes (mt : NoteType) (sm : Option Int) (t : Int) (count : Nat)
    (startId : Nat) (rng : List Nat) : List ActiveNote :=
  (List.range count).map (fun i =>
    { id := startId + i
      time := t + 200 + i * 200
      type := mt
      lane := (rng.getD i 0) % 4
      holdDuration := none
      speedMultiplier := sm
      requireRelease := none
      mutationType := none
      mutationCount := none
      hitState := HitState.NONE
      visible := true })

/-- handleNoteMutation: on a parent with a mutation kind, push the spawned
notes and re-sort the note list by time; otherwise do nothing. -/
def handleNoteMutation (s : GameState) (parent : ActiveNote) : GameState :=
  match parent.mutationType with
  | none => s
  | some mt =>
    let count := effMutationCount parent
    { s with
      notes := sortByTime (s.notes ++ spawnNotes mt parent.speedMultiplier s.currentTime count s.nextId s.rng)
      nextId := s.nextId + count
      rng := s.rng.drop count }

/-! Input resolver: processHit (lines 726-879). -/

/-- Lane targeting (lines 741-753): in FOUR_KEYS mode a key name must map to
one of the four configured bindings, otherwise the press is ignored; the
outer none means ignore, the inner option is the target lane. -/
def resolveTargetLane (settings : GameSettings) (laneIndex : Option Nat)
    (keyName : Option Nat) : Option (Option Nat) :=
  match settings.keyMode, keyName with
  | KeyMode.FOUR_KEYS, some k =>
    match settings.keyBindings.findIdx? (fun b => b = k) with
    | some i => if i < 4 then some (some i) else none
    | none => none
  | _, _ => some laneIndex

/-- Whether the FOUR_KEYS lane filter of the candidate scan skips a note
(line 761). -/
def laneExcluded (settings : GameSettings) (targetLane : Option Nat) (n : ActiveNote) : Bool :=
  match settings.keyMode, targetLane with
  | KeyMode.FOUR_KEYS, some tl => n.lane ≠ tl
  | _, _ => false

/-- The candidate scan of processHit (lines 755-770): pending notes, the
lane filter in FOUR_KEYS mode, stop at the first note more than 200ms in the
future (the list is time-sorted), skip notes more than 200ms in the past. -/
def collectCandidates (settings : GameSettings) (targetLane : Option Nat) (t : Int) :
    List ActiveNote → List ActiveNote
  | [] => []
  | n :: rest =>
    if n.hitState ≠ HitState.NONE then collectCandidates settings targetLane t rest
    else if laneExcluded settings targetLane n then collectCandidates settings targetLane t rest
    else if HIT_WINDOWS_MISS < n.time - t then []
    else if n.time - t < -HIT_WINDOWS_MISS then collectCandidates settings targetLane t rest
    else n :: collectCandidates settings targetLane t rest

/-- Whether a note is a mine. -/
def isMine (n : ActiveNote) : Bool :=
  n.type = NoteType.MINE

/-- The strict order induced by the candidate comparator of lines 775-784:
a safe (non-mine) note sorts before a mine, ties broken by ascending
absolute time delta. -/
def candLt (t : Int) (a b : ActiveNote) : Prop :=
  (isMine a = false ∧ isMine b = true) ∨
    (isMine a = isMine b ∧ |a.time - t| < |b.time - t|)

instance (t : Int) (a b : ActiveNote) : Decidable (candLt t a b) := by
  unfold candLt; infer_instance

/-- The first element of the stably sorted candidate list: the leftmost
element minimal under the comparator order (candidates[0] in line 786). -/
def pickBest (t : Int) : List ActiveNote → Option ActiveNote
  | [] => none
  | n :: rest => some (rest.foldl (fun best m => if candLt t m best then m else best) n)

/-- Whether a note is auto-resolved by the synchronous auto-hit scan around
a primary hit (lines 846-848): a pending HOLD_CLICK within 50ms of the
primary target time. -/
def syncMatch (targetTime : Int) (n : ActiveNote) : Prop :=
  n.type = NoteType.HOLD_CLICK ∧ n.hitState = HitState.NONE ∧ |n.time - targetTime| ≤ 50

instance (targetTime : Int) (n : ActiveNote) : Decidable (syncMatch targetTime n) := by
  unfold syncMatch; infer_instance

/-- The synchronous auto-hit scan (lines 844-860): every matching note is
resolved Hit and hidden, the combo and perfect tally grow by one each and
the score by the perfect delta per note (the max combo is not touched), and
each matching note with a mutation kind spawns its own notes. -/
def applySyncHits (targetTime : Int) (s : GameState) : GameState :=
  let matched := s.notes.filter (fun n => decide (syncMatch targetTime n))
  let s1 := { s with
    notes := s.notes.map (fun n =>
      if syncMatch targetTime n then { n with hitState := HitState.HIT, visible := false } else n)
    combo := s.combo + matched.length
    score := { s.score with
      perfect := s.score.perfect + matched.length
      score := s.score.score + SCORES_PERFECT * matched.length } }
  matched.foldl (fun acc p => handleNoteMutation acc p) s1

/-- processHit (lines 726-879): the discrete press handler.  laneIndex and
keyName are the optional hints, inputId the caller-assigned identifier. -/
def processHit (settings : GameSettings) (laneIndex : Option Nat) (keyName : Option Nat)
    (inputId : Nat) (s : GameState) : GameState :=
  if s.isPaused ∨ s.hasEnded then s
  else if inputId ∈ s.pressedInputs then s
  else
    let s1 := { s with pressedInputs := inputId :: s.pressedInputs }
    match resolveTargetLane settings laneIndex keyName with
    | none => s1
    | some targetLane =>
      match pickBest s1.currentTime (collectCandidates settings targetLane s1.currentTime s1.notes) with
      | none => s1
      | some target =>
        let minDiff := |target.time - s1.currentTime|
        let s2 :=
          match target.speedMultiplier with
          | some v =>
            if ¬ settings.practiceMode ∧ v ≠ 0 ∧ v ≠ 1 then
              { s1 with targetGlobalSpeedMultiplier := v }
            else s1
          | none => s1
        if target.type = NoteType.MINE then
          { s2 with
            notes := updateNote target.id
              (fun n => { n with hitState := HitState.HIT, visible := false }) s2.notes
            combo := 0
            score := { s2.score with
              minesHit := s2.score.minesHit + 1
              score := s2.score.score + SCORES_MINE } }
        else
          let scoreAdd := scoreAddFor minDiff
          if 0 < scoreAdd then
            let combo1 := s2.combo + 1
            let sc1 := { s2.score with maxCombo := max s2.score.maxCombo combo1 }
            let sc2 :=
              if scoreAdd = SCORES_PERFECT then { sc1 with perfect := sc1.perfect + 1 }
              else { sc1 with good := sc1.good + 1 }
            let s3 := { s2 with combo := combo1, score := sc2 }
            let s4 := handleNoteMutation s3 target
            let s5 := applySyncHits target.time s4
            let s6 := { s5 with score := { s5.score with score := s5.score.score + scoreAdd } }
            if target.type = NoteType.HOLD then
              { s6 with
                notes := updateNote target.id (fun n => { n with hitState := HitState.HOLDING }) s6.notes
                activeHoldNoteIds := target.id :: s6.activeHoldNoteIds }
            else
              { s6 with
                notes := updateNote target.id
                  (fun n => { n with hitState := HitState.HIT, visible := false }) s6.notes }
          else
            s2

/-! Release handling: processRelease (lines 881-939). -/

/-- Evaluation of one Holding note when the last input is released (lines
901-935): with a required release, a release before the good window around
the end time or after it is a Missed (combo reset, miss tally up, the note
stays visible); inside the window, or when no release is required, the note
resolves Hit with the perfect score delta.  Returns the updated note, score
and combo. -/
def releaseEval (t : Int) (sc : ScoreState) (combo : Nat) (n : ActiveNote) :
    ActiveNote × ScoreState × Nat :=
  let releaseTime := n.time + n.holdDuration.getD 0
  let isReleaseRequired := n.requireRelease ≠ some false
  if isReleaseRequired then
    if t < releaseTime - HIT_WINDOWS_GOOD then
      ({ n with hitState := HitState.MISSED }, { sc with miss := sc.miss + 1 }, 0)
    else if releaseTime + HIT_WINDOWS_GOOD < t then
      ({ n with hitState := HitState.MISSED }, { sc with miss := sc.miss + 1 }, 0)
    else
      ({ n with hitState := HitState.HIT, visible := false },
        { sc with score := sc.score + SCORES_PERFECT }, combo)
  else
    ({ n with hitState := HitState.HIT, visible := false },
      { sc with score := sc.score + SCORES_PERFECT }, combo)

/-- One iteration of the release loop over the snapshot of the held-note id
set (lines 900-937): find the note, evaluate it if it is still Holding, and
in every case remove the id from the held-note set. -/
def releaseStep (acc : GameState) (i : Nat) : GameState :=
  let acc1 :=
    match acc.notes.find? (fun n => n.id = i) with
    | some n =>
      if n.hitState = HitState.HOLDING then
        let r := releaseEval acc.currentTime acc.score acc.combo n
        { acc with
          notes := updateNote i (fun _ => r.1) acc.notes
          score := r.2.1
          combo := r.2.2 }
      else acc
    | none => acc
  { acc1 with activeHoldNoteIds := acc1.activeHoldNoteIds.filter (fun x => x ≠ i) }

/-- processRelease (lines 881-939): drop the input from the held set; while
at least one input remains held nothing else happens; when the set becomes
empty, every note in the held-note id set is release-evaluated. -/
def processRelease (inputId : Nat) (s : GameState) : GameState :=
  let s0 := { s with pressedInputs := s.pressedInputs.filter (fun x => x ≠ inputId) }
  if s0.isPaused ∨ s0.hasEnded then s0
  else if s0.pressedInputs ≠ [] then s0
  else s0.activeHoldNoteIds.foldl releaseStep s0

/-! The per-frame simulation step: update (lines 972-1565), restricted to
its simulation effects.  The clock reconciliation of lines 980-1018 computes
the new song time from the frame delta and the optional audio position; the
tick below takes that new song time as an input, which is how every claim
refers to it. -/

/-- One iteration of the hold end-condition loop (lines 1033-1074): a
Holding note past its end time auto-resolves Hit when no release is required
or when no input is held; a note with a required release still held more
than the good window past its end time force-resolves Missed. -/
def holdEndStep (acc : GameState) (i : Nat) : GameState :=
  match acc.notes.find? (fun n => n.id = i) with
  | none => acc
  | some n =>
    if n.hitState = HitState.HOLDING then
      let endTime := n.time + n.holdDuration.getD 0
      let isReleaseRequired := n.requireRelease ≠ some false
      let acc1 :=
        if endTime ≤ acc.currentTime then
          if ¬ isReleaseRequired then
            { acc with
              notes := updateNote i
                (fun m => { m with hitState := HitState.HIT, visible := false }) acc.notes
              score := { acc.score with score := acc.score.score + SCORES_PERFECT }
              activeHoldNoteIds := acc.activeHoldNoteIds.filter (fun x => x ≠ i) }
          else if acc.pressedInputs = [] then
            { acc with
              notes := updateNote i
                (fun m => { m with hitState := HitState.HIT, visible := false }) acc.notes
              score := { acc.score with score := acc.score.score + SCORES_PERFECT }
              activeHoldNoteIds := acc.activeHoldNoteIds.filter (fun x => x ≠ i) }
          else acc
        else acc
      if isReleaseRequired ∧ acc1.pressedInputs ≠ [] ∧ endTime + HIT_WINDOWS_GOOD < acc1.currentTime then
        { acc1 with
          notes := updateNote i
            (fun m => { m with hitState := HitState.MISSED, visible := false }) acc1.notes
          combo := 0
          score := { acc1.score with miss := acc1.score.miss + 1 }
          activeHoldNoteIds := acc1.activeHoldNoteIds.filter (fun x => x ≠ i) }
      else acc1
    else acc

/-- The hold end-condition pass over the snapshot of the held-note ids. -/
def holdEndPass (s : GameState) : GameState :=
  s.activeHoldNoteIds.foldl holdEndStep s

/-- One iteration of the note-head scan (lines 1280-1318), simulation
effects only: a pending HOLD_CLICK whose time lies within the past 200ms
window auto-resolves Hit while any input is held (combo and perfect tally up
by one, score up by the perfect delta, the max combo untouched, mutation
triggered); after that, any pending note more than 200ms in the past
auto-resolves: a mine silently to Hit, anything else to Missed with combo
reset and miss tally up (no score delta). -/
def noteScanStep (acc : GameState) (n : ActiveNote) : GameState :=
  if ¬ n.visible then acc
  else if n.hitState = HitState.HOLDING then acc
  else
    let timeDiff := n.time - acc.currentTime
    if n.type = NoteType.HOLD_CLICK ∧ n.hitState = HitState.NONE ∧
        timeDiff ≤ 0 ∧ -HIT_WINDOWS_MISS ≤ timeDiff ∧ acc.pressedInputs ≠ [] then
      let acc1 := { acc with
        notes := updateNote n.id
          (fun m => { m with hitState := HitState.HIT, visible := false }) acc.notes
        combo := acc.combo + 1
        score := { acc.score with
          perfect := acc.score.perfect + 1
          score := acc.score.score + SCORES_PERFECT } }
      handleNoteMutation acc1 n
    else if timeDiff < -HIT_WINDOWS_MISS ∧ n.hitState = HitState.NONE then
      if n.type = NoteType.MINE then
        { acc with
          notes := updateNote n.id
            (fun m => { m with hitState := HitState.HIT, visible := false }) acc.notes }
      else
        { acc with
          notes := updateNote n.id (fun m => { m with hitState := HitState.MISSED }) acc.notes
          combo := 0
          score := { acc.score with miss := acc.score.miss + 1 } }
    else acc

/-- The note-head scan pass over the snapshot of the note list. -/
def noteScanPass (s : GameState) : GameState :=
  s.notes.foldl noteScanStep s

/-- One simulation tick (update, lines 972-1565, simulation effects): a
paused round does nothing; otherwise the song time advances to the value the
clock reconciliation produced, the terminal condition (external audio ended,
or song time beyond the duration plus the 2000ms buffer) ends the round, and
otherwise the hold end-condition pass and the note-head scan run. -/
def tick (duration : Int) (audioEnded : Bool) (newTime : Int) (s : GameState) : GameState :=
  if s.isPaused then s
  else
    let s1 := { s with currentTime := newTime }
    if ¬ s1.hasEnded ∧ (audioEnded = true ∨ duration + 2000 < s1.currentTime) then
      { s1 with hasEnded := true }
    else
      noteScanPass (holdEndPass s1)

/-! Round start: handleRestart (lines 688-724). -/

/-- Rehydration of one authored note into a pending runtime note (lines
711-716): every authored field is kept unchanged. -/
def initNote (n : Note) : ActiveNote :=
  { id := n.id
    time := n.time
    type := n.type
    lane := n.lane
    holdDuration := n.holdDuration
    speedMultiplier := n.speedMultiplier
    requireRelease := n.requireRelease
    mutationType := n.mutationType
    mutationCount := n.mutationCount
    hitState := HitState.NONE
    visible := true }

/-- A fresh id above every authored note id, for mutation-spawned notes. -/
def freshIdAfter (notes : List Note) : Nat :=
  notes.foldl (fun m n => max m n.id) 0 + 1

/-- handleRestart (lines 688-724): zero the clock, score, combo, held sets
and speed state, rehydrate every note template unchanged as a pending
visible runtime note, and sort notes and events by time.  No validation is
performed and no error path exists.  The rng argument is the stream of
random lane choices future mutations will consume. -/
def handleRestart (beatmap : Beatmap) (rng : List Nat) : GameState :=
  { currentTime := 0
    hasEnded := false
    isPaused := false
    notes := sortByTime (beatmap.notes.map initNote)
    events := sortBy (fun e => e.time) beatmap.events
    score := { perfect := 0, good := 0, miss := 0, minesHit := 0, maxCombo := 0, score := 0 }
    combo := 0
    pressedInputs := []
    activeHoldNoteIds := []
    targetGlobalSpeedMultiplier := 1
    nextId := freshIdAfter beatmap.notes
    rng := rng }

/-! Input traces over a round. -/

/-- A discrete event delivered to the core: a press, a release, or a
simulation tick at a given reconciled song time. -/
inductive InputEvent
  | press (laneIndex : Option Nat) (keyName : Option Nat) (inputId : Nat)
  | release (inputId : Nat)
  | tick (audioEnded : Bool) (newTime : Int)
deriving DecidableEq

/-- Dispatch of one trace event to the corresponding handler. -/
def stepEvent (settings : GameSettings) (duration : Int) (s : GameState) :
    InputEvent → GameState
  | InputEvent.press laneIndex keyName inputId => processHit settings laneIndex keyName inputId s
  | InputEvent.release inputId => processRelease inputId s
  | InputEvent.tick audioEnded newTime => tick duration audioEnded newTime s

/-- Running a round over a trace of events. -/
def runTrace (settings : GameSettings) (duration : Int) (s : GameState)
    (trace : List InputEvent) : GameState :=
  trace.foldl (stepEvent settings duration) s

/-- The state with the random stream erased: two runs agree observably when
their stripped states agree (everything but the unconsumed random choices
coincides). -/
def stripRng (s : GameState) : GameState :=
  { s with rng := [] }

/-- No note of the list carries a mutation kind. -/
def noMut (l : List ActiveNote) : Prop :=
  ∀ n ∈ l, n.mutationType = none

/-! Concrete rounds used by the scenario theorems, witnesses and
counterexamples. -/

/-- Unrestricted key mode with the default bindings (modelled as numbers). -/
def settingsAll : GameSettings :=
  { practiceMode := false, keyMode := KeyMode.ALL_KEYS, keyBindings := [10, 11, 12, 13] }

/-- Bound-keys mode with the default bindings. -/
def settingsFour : GameSettings :=
  { practiceMode := false, keyMode := KeyMode.FOUR_KEYS, keyBindings := [10, 11, 12, 13] }

/-- A single Tap at 1000ms (scenarios A-C of the spec). -/
def tapMap : Beatmap :=
  { notes := [{ id := 1, time := 1000, type := NoteType.CLICK, lane := 0,
                holdDuration := none, speedMultiplier := none, requireRelease := none,
                mutationType := none, mutationCount := none }]
    events := []
    duration := 60000 }

/-- A Tap at 1000ms and a SyncTap 20ms later, inside the 50ms sync radius. -/
def syncPairMap : Beatmap :=
  { notes := [{ id := 1, time := 1000, type := NoteType.CLICK, lane := 0,
                holdDuration := none, speedMultiplier := none, requireRelease := none,
                mutationType := none, mutationCount := none },
              { id := 2, time := 1020, type := NoteType.HOLD_CLICK, lane := 1,
                holdDuration := none, speedMultiplier := none, requireRelease := none,
                mutationType := none, mutationCount := none }]
    events := []
    duration := 60000 }

/-- A Mine and a Tap, both at 5000ms, on different lanes (scenario D). -/
def mineTapMap : Beatmap :=
  { notes := [{ id := 1, time := 5000, type := NoteType.MINE, lane := 0,
                holdDuration := none, speedMultiplier := none, requireRelease := none,
                mutationType := none, mutationCount := none },
              { id := 2, time := 5000, type := NoteType.CLICK, lane := 1,
                holdDuration := none, speedMultiplier := none, requireRelease := none,
                mutationType := none, mutationCount := none }]
    events := []
    duration := 60000 }

/-- A Hold at 2000ms lasting 500ms with a required release (scenario E). -/
def holdMap : Beatmap :=
  { notes := [{ id := 1, time := 2000, type := NoteType.HOLD, lane := 0,
                holdDuration := some 500, speedMultiplier := none, requireRelease := some true,
                mutationType := none, mutationCount := none }]
    events := []
    duration := 60000 }

/-- A Tap at 1000ms that spawns one Tap on a random lane when hit. -/
def mutMap : Beatmap :=
  { notes := [{ id := 1, time := 1000, type := NoteType.CLICK, lane := 0,
                holdDuration := none, speedMultiplier := none, requireRelease := none,
                mutationType := some NoteType.CLICK, mutationCount := some 1 }]
    events := []
    duration := 60000 }

/-- The input trace of the determinism counterexample: hit the mutation Tap
on its lane at 1000ms, then press the same lane again at 1200ms when the
spawned note is due, then let time pass. -/
def mutTrace : List InputEvent :=
  [InputEvent.tick false 1000,
   InputEvent.press none (some 10) 0,
   InputEvent.release 0,
   InputEvent.tick false 1200,
   InputEvent.press none (some 10) 1,
   InputEvent.release 1,
   InputEvent.tick false 2000]

/-- A beatmap full of invalid authoring data: a note at a negative time, a
Hold with a zero hold duration, a mutation count far above the editor range
of 1..8, and an event at a negative time. -/
def badMap : Beatmap :=
  { notes := [{ id := 1, time := -5, type := NoteType.CLICK, lane := 0,
                holdDuration := none, speedMultiplier := none, requireRelease := none,
                mutationType := none, mutationCount := none },
              { id := 2, time := 100, type := NoteType.HOLD, lane := 1,
                holdDuration := some 0, speedMultiplier := none, requireRelease := none,
                mutationType := none, mutationCount := none },
              { id := 3, time := 50, type := NoteType.CLICK, lane := 2,
                holdDuration := none, speedMultiplier := none, requireRelease := none,
                mutationType := some NoteType.CLICK, mutationCount := some 99 }]
    events := [{ id := 1, time := -10, type := EventType.CAMERA_ZOOM, duration := 0, value := 0 }]
    duration := 60000 }

/-- A fresh round on the single Tap with one input already held (for the
duplicate-press witness). -/
def heldDemoState : GameState :=
  { handleRestart tapMap [] with pressedInputs := [0] }

/-- A fresh round on the single Tap with the clock at 1180ms: the Tap is
180ms in the past, inside the miss band (for the non-event witness). -/
def lateDemoState : GameState :=
  { handleRestart tapMap [] with currentTime := 1180 }

/-- A HOLD_CLICK at 1000ms that spawns two Taps when hit (for the auto-hit
witness). -/
def syncMutMap : Beatmap :=
  { notes := [{ id := 1, time := 1000, type := NoteType.HOLD_CLICK, lane := 0,
                holdDuration := none, speedMultiplier := none, requireRelease := none,
                mutationType := some NoteType.CLICK, mutationCount := some 2 }]
    events := []
    duration := 60000 }

/-- The round on syncMutMap just before the auto-hit tick: one input held
(pressed during the pre-roll, far from any note), clock still at 0. -/
def syncMutHeld : GameState :=
  processHit settingsAll none none 0 (handleRestart syncMutMap [2, 3])

/-- The scenario-E round right after the press at 2000ms: the Hold at 2000ms
is Holding (perfect press, +100) and input 0 is held. -/
def holdHolding : GameState :=
  processHit settingsAll none none 0 (tick 60000 false 2000 (handleRestart holdMap []))

/-- The scenario-E round with two inputs held (for the sustained-hold
witness). -/
def twoHeldState : GameState :=
  { holdHolding with pressedInputs := [5, 7] }

/-! Theorems. -/

/-- C1: for every signed time delta between a press and a pending non-mine
note, the classification is perfect iff the absolute delta is at most 90ms,
good iff it lies in (90, 150], a miss candidate iff it lies in (150, 200],
and not a candidate otherwise; the score delta the resolver adds for each
class is the fixed constant of src/constants.ts (perfect +100, good +50,
miss -30, mine -100). -/
theorem classify_hit_windows :
    ∀ d : Int,
      (classify d = HitClass.perfect ↔ |d| ≤ 90) ∧
      (classify d = HitClass.good ↔ 90 < |d| ∧ |d| ≤ 150) ∧
      (classify d = HitClass.missCand ↔ 150 < |d| ∧ |d| ≤ 200) ∧
      (classify d = HitClass.notCandidate ↔ 200 < |d|) ∧
      (|d| ≤ 200 → scoreAddFor |d| = scoreForClass (classify d)) ∧
      SCORES_PERFECT = 100 ∧ SCORES_GOOD = 50 ∧ SCORES_MISS = -30 ∧ SCORES_MINE = -100 := by
  intro d
  unfold classify scoreAddFor scoreForClass
  unfold HIT_WINDOWS_PERFECT HIT_WINDOWS_GOOD HIT_WINDOWS_MISS
  by_cases h1 : (200 : Int) < |d|
  case pos =>
    rw [if_pos h1]
    refine ⟨?_, ?_, ?_, iff_of_true rfl h1, ?_, rfl, rfl, rfl, rfl⟩
    · exact iff_of_false (by decide) (by linarith)
    · exact iff_of_false (by decide) (fun hx => by linarith [hx.2])
    · exact iff_of_false (by decide) (fun hx => by linarith [hx.2])
    · exact fun hle => absurd h1 (not_lt.mpr hle)
  case neg =>
    rw [if_neg h1]
    push_neg at h1
    by_cases h2 : |d| ≤ 90
    case pos =>
      rw [if_pos h2, if_pos h2]
      refine ⟨iff_of_true rfl h2, ?_, ?_, ?_, fun _ => rfl, rfl, rfl, rfl, rfl⟩
      · exact iff_of_false (by decide) (fun hx => by linarith [hx.1])
      · exact iff_of_false (by decide) (fun hx => by linarith [hx.1])
      · exact iff_of_false (by decide) (by linarith)
    case neg =>
      rw [if_neg h2, if_neg h2]
      push_neg at h2
      by_cases h3 : |d| ≤ 150
      case pos =>
        rw [if_pos h3, if_pos h3]
        refine ⟨iff_of_false (by decide) (by linarith), iff_of_true rfl ⟨h2, h3⟩,
          ?_, ?_, fun _ => rfl, rfl, rfl, rfl, rfl⟩
        · exact iff_of_false (by decide) (fun hx => by linarith [hx.1])
        · exact iff_of_false (by decide) (by linarith)
      case neg =>
        rw [if_neg h3, if_neg h3]
        push_neg at h3
        exact ⟨iff_of_false (by decide) (by linarith),
          iff_of_false (by decide) (fun hx => by linarith [hx.2]),
          iff_of_true rfl ⟨h3, h1⟩,
          iff_of_false (by decide) (by linarith),
          fun _ => rfl, rfl, rfl, rfl, rfl⟩

/-- C8: pressing an input id that is already held is a complete no-op: the
state (notes, score, combo, held-input set, everything) is unchanged, so a
press never double-scores. -/
theorem processHit_duplicate_press_noop
    (settings : GameSettings) (laneIndex keyName : Option Nat) (inputId : Nat)
    (s : GameState) (h : inputId ∈ s.pressedInputs) :
    processHit settings laneIndex keyName inputId s = s := by
  by_cases h1 : s.isPaused ∨ s.hasEnded
  · simp [processHit, h1]
  · simp [processHit, h1, h]

/-- Witness for C8 at a concrete round: input 0 is held and the second press
of input 0 changes nothing. -/
theorem processHit_duplicate_press_noop_witness :
    0 ∈ heldDemoState.pressedInputs ∧
      processHit settingsAll none none 0 heldDemoState = heldDemoState :=
  ⟨by decide, processHit_duplicate_press_noop settingsAll none none 0 heldDemoState (by decide)⟩

/-- C7: a press whose chosen candidate is a non-mine note in the miss band
(absolute delta above 150ms) is a non-event as far as the round goes: the
note list (so every judgement, the candidate stays Pending), the score
state, the combo and the held-note set are all unchanged; a note is never
judged Missed by such a press. -/
theorem processHit_missband_nonevent
    (settings : GameSettings) (laneIndex keyName : Option Nat) (inputId : Nat)
    (s : GameState) (targetLane : Option Nat) (target : ActiveNote)
    (hp : s.isPaused = false) (he : s.hasEnded = false)
    (hin : inputId ∉ s.pressedInputs)
    (hlane : resolveTargetLane settings laneIndex keyName = some targetLane)
    (hpick : pickBest s.currentTime
      (collectCandidates settings targetLane s.currentTime s.notes) = some target)
    (hmine : ¬ target.type = NoteType.MINE)
    (hband : 150 < |target.time - s.currentTime|) :
    (processHit settings laneIndex keyName inputId s).notes = s.notes ∧
    (processHit settings laneIndex keyName inputId s).score = s.score ∧
    (processHit settings laneIndex keyName inputId s).combo = s.combo ∧
    (processHit settings laneIndex keyName inputId s).activeHoldNoteIds = s.activeHoldNoteIds := by
  have hsa : scoreAddFor |target.time - s.currentTime| = SCORES_MISS := by
    unfold scoreAddFor HIT_WINDOWS_PERFECT HIT_WINDOWS_GOOD
    rw [if_neg (by linarith), if_neg (by linarith)]
  unfold processHit
  simp only [hp, he, Bool.false_eq_true, or_self, if_false, hin, if_neg, hlane, hpick, hmine,
    not_false_eq_true, hsa]
  rcases hsm : target.speedMultiplier with _ | v
  · simp [hsm, SCORES_MISS]
  · simp only [hsm, SCORES_MISS]
    split_ifs <;> first | omega | simp

/-- Witness for C7 at a concrete round: the Tap at 1000ms is the candidate
of a press at 1180ms (delta 180ms, miss band) and nothing changes. -/
theorem processHit_missband_nonevent_witness :
    (processHit settingsAll none none 0 lateDemoState).notes = lateDemoState.notes ∧
    (processHit settingsAll none none 0 lateDemoState).score = lateDemoState.score ∧
    (processHit settingsAll none none 0 lateDemoState).combo = lateDemoState.combo ∧
    (processHit settingsAll none none 0 lateDemoState).activeHoldNoteIds =
      lateDemoState.activeHoldNoteIds :=
  processHit_missband_nonevent settingsAll none none 0 lateDemoState none
    { id := 1, time := 1000, type := NoteType.CLICK, lane := 0,
      holdDuration := none, speedMultiplier := none, requireRelease := none,
      mutationType := none, mutationCount := none,
      hitState := HitState.NONE, visible := true }
    (by decide) (by decide) (by decide) (by decide) (by decide) (by decide) (by decide)

/-- The candidate comparator order is irreflexive. -/
theorem candLt_irrefl (t : Int) (a : ActiveNote) : ¬ candLt t a a := by
  unfold candLt
  rintro (⟨h1, h2⟩ | ⟨-, h2⟩)
  · rw [h1] at h2
    exact Bool.false_ne_true h2
  · exact lt_irrefl _ h2

/-- The candidate comparator order is transitive. -/
theorem candLt_trans (t : Int) (a b c : ActiveNote)
    (hab : candLt t a b) (hbc : candLt t b c) : candLt t a c := by
  unfold candLt at *
  rcases hab with ⟨ha, hb⟩ | ⟨hab, hlt⟩ <;> rcases hbc with ⟨hb2, hc⟩ | ⟨hbc, hlt2⟩
  · rw [hb] at hb2
    exact absurd hb2 (by simp)
  · left
    exact ⟨ha, hbc ▸ hb⟩
  · left
    exact ⟨hab.trans hb2, hc⟩
  · right
    exact ⟨hab.trans hbc, hlt.trans hlt2⟩

/-- Co-transitivity of the candidate comparator order (it is a strict weak
order: the underlying sort key is totally preordered). -/
theorem candLt_cotrans (t : Int) (a b c : ActiveNote) (h : candLt t a c) :
    candLt t a b ∨ candLt t b c := by
  unfold candLt at *
  set x := |a.time - t| with hx
  set y := |b.time - t| with hy
  set z := |c.time - t| with hz
  cases ha : isMine a <;> cases hb : isMine b <;> cases hc : isMine c <;>
    simp_all <;> omega

/-- The running best of the candidate fold is an element of the scanned
prefix and no scanned element is strictly better. -/
theorem foldl_best_spec (t : Int) (rest : List ActiveNote) (b : ActiveNote) :
    (rest.foldl (fun best m => if candLt t m best then m else best) b = b ∨
      rest.foldl (fun best m => if candLt t m best then m else best) b ∈ rest) ∧
    ¬ candLt t b (rest.foldl (fun best m => if candLt t m best then m else best) b) ∧
    ∀ m ∈ rest, ¬ candLt t m (rest.foldl (fun best m => if candLt t m best then m else best) b) := by
  induction rest generalizing b with
  | nil => exact ⟨Or.inl rfl, candLt_irrefl t b, by simp⟩
  | cons m rest ih =>
    simp only [List.foldl_cons]
    by_cases hm : candLt t m b
    · rw [if_pos hm]
      obtain ⟨hmem, hbest, hall⟩ := ih m
      refine ⟨?_, ?_, ?_⟩
      · rcases hmem with h | h
        · exact Or.inr (by rw [h]; exact List.mem_cons_self m rest)
        · exact Or.inr (List.mem_cons_of_mem m h)
      · intro hb
        rcases candLt_cotrans t b m
            (rest.foldl (fun best x => if candLt t x best then x else best) m) hb with h | h
        · exact candLt_irrefl t b (candLt_trans t b m b h hm)
        · exact hbest h
      · intro x hx
        rcases List.mem_cons.mp hx with rfl | hx
        · exact hbest
        · exact hall x hx
    · rw [if_neg hm]
      obtain ⟨hmem, hbest, hall⟩ := ih b
      refine ⟨?_, hbest, ?_⟩
      · rcases hmem with h | h
        · exact Or.inl h
        · exact Or.inr (List.mem_cons_of_mem m h)
      · intro x hx
        rcases List.mem_cons.mp hx with rfl | hx
        · intro hxr
          rcases candLt_cotrans t x b
              (rest.foldl (fun best y => if candLt t y best then y else best) b) hxr with h | h
          · exact hm h
          · exact hbest h
        · exact hall x hx

/-- The chosen candidate is one of the candidates and none of them sorts
strictly before it under the comparator (non-mine first, then smallest
absolute delta): with a stable sort this is exactly the first element of the
sorted candidate list. -/
theorem pickBest_spec (t : Int) (l : List ActiveNote) (n : ActiveNote)
    (h : pickBest t l = some n) : n ∈ l ∧ ∀ m ∈ l, ¬ candLt t m n := by
  match l, h with
  | b :: rest, h =>
    unfold pickBest at h
    obtain ⟨hmem, hbest, hall⟩ := foldl_best_spec t rest b
    have hn : rest.foldl (fun best m => if candLt t m best then m else best) b = n := by
      simpa [pickBest] using h
    rw [hn] at hmem hbest hall
    refine ⟨?_, ?_⟩
    · rcases hmem with rfl | hmem
      · exact List.mem_cons_self _ _
      · exact List.mem_cons_of_mem _ hmem
    · intro m hm
      rcases List.mem_cons.mp hm with rfl | hm
      · exact hbest
      · exact hall m hm

/-- C5: candidate selection takes a minimal candidate under the comparator
order (non-mine before mine, then ascending absolute delta; the leftmost one
on ties, as the sort is stable); concretely, with a Mine and a Tap both at
5000ms in unrestricted key mode, a single press at 5000ms resolves the Tap
to Hit with a perfect judgement and leaves the Mine pending (no mine tally,
no mine penalty). -/
theorem mine_tap_tiebreak :
    (∀ (t : Int) (l : List ActiveNote) (n : ActiveNote),
      pickBest t l = some n → n ∈ l ∧ ∀ m ∈ l, ¬ candLt t m n) ∧
    ((processHit settingsAll none none 0 (tick 60000 false 5000 (handleRestart mineTapMap []))).notes.map
        (fun n => (n.id, n.hitState)) = [(1, HitState.NONE), (2, HitState.HIT)] ∧
      (processHit settingsAll none none 0 (tick 60000 false 5000 (handleRestart mineTapMap []))).score.minesHit = 0 ∧
      (processHit settingsAll none none 0 (tick 60000 false 5000 (handleRestart mineTapMap []))).score.perfect = 1 ∧
      (processHit settingsAll none none 0 (tick 60000 false 5000 (handleRestart mineTapMap []))).score.score = 100 ∧
      (processHit settingsAll none none 0 (tick 60000 false 5000 (handleRestart mineTapMap []))).combo = 1) :=
  ⟨fun t l n h => pickBest_spec t l n h, by decide⟩

/-- Witness for C5: the selection facts instantiated at the concrete
scenario-D candidate list (the press at 5000ms picks the Tap, which is a
member of the scan result that no candidate beats). -/
theorem mine_tap_tiebreak_witness :
    ({ id := 2, time := 5000, type := NoteType.CLICK, lane := 1, holdDuration := none,
       speedMultiplier := none, requireRelease := none, mutationType := none,
       mutationCount := none, hitState := HitState.NONE, visible := true } : ActiveNote) ∈
      collectCandidates settingsAll none 5000 (tick 60000 false 5000 (handleRestart mineTapMap [])).notes ∧
    ∀ m ∈ collectCandidates settingsAll none 5000 (tick 60000 false 5000 (handleRestart mineTapMap [])).notes,
      ¬ candLt 5000 m
        { id := 2, time := 5000, type := NoteType.CLICK, lane := 1, holdDuration := none,
          speedMultiplier := none, requireRelease := none, mutationType := none,
          mutationCount := none, hitState := HitState.NONE, visible := true } :=
  mine_tap_tiebreak.1 5000
    (collectCandidates settingsAll none 5000 (tick 60000 false 5000 (handleRestart mineTapMap [])).notes)
    _ (by decide)

/-- One hold end-condition iteration does nothing when no note is
Holding. -/
theorem holdEndStep_no_holding (s : GameState) (i : Nat)
    (h : ∀ n ∈ s.notes, n.hitState ≠ HitState.HOLDING) : holdEndStep s i = s := by
  unfold holdEndStep
  cases hf : s.notes.find? (fun n => n.id = i) with
  | none => rfl
  | some n =>
    have hmem : n ∈ s.notes := List.mem_of_find?_eq_some hf
    dsimp only
    rw [if_neg (h n hmem)]

/-- Folding the hold end-condition step over any id list does nothing when
no note is Holding. -/
theorem foldl_holdEndStep_no_holding (ids : List Nat) (s : GameState)
    (h : ∀ n ∈ s.notes, n.hitState ≠ HitState.HOLDING) :
    ids.foldl holdEndStep s = s := by
  induction ids with
  | nil => rfl
  | cons i ids ih => rw [List.foldl_cons, holdEndStep_no_holding s i h, ih]

/-- The hold end-condition pass does nothing when no note is Holding. -/
theorem holdEndPass_no_holding (s : GameState)
    (h : ∀ n ∈ s.notes, n.hitState ≠ HitState.HOLDING) : holdEndPass s = s :=
  foldl_holdEndStep_no_holding s.activeHoldNoteIds s h

/-- C3 counterexample: with the Tap at 1000ms never pressed, the tick at
1201ms auto-resolves it Missed with the miss tally at 1 and the combo at 0,
but the total score stays 0, not the -30 the claim asserts: no score delta
is applied on the auto-miss path (the -30 constant is only ever selected for
a miss-band press, which is discarded as a non-event). -/
theorem tap_auto_miss_score_counterexample :
    (tick 60000 false 1201 (handleRestart tapMap [])).notes.map (fun n => n.hitState) =
        [HitState.MISSED] ∧
    (tick 60000 false 1201 (handleRestart tapMap [])).score.miss = 1 ∧
    (tick 60000 false 1201 (handleRestart tapMap [])).combo = 0 ∧
    (tick 60000 false 1201 (handleRestart tapMap [])).score.score = 0 ∧
    ¬ (tick 60000 false 1201 (handleRestart tapMap [])).score.score = -30 := by
  decide

/-- C3 amended: a pending Tap alone in the round whose time is more than
200ms behind the tick song time auto-resolves to Missed with the miss tally
incremented and the combo reset to 0, and the total score is unchanged (the
auto-miss applies no score delta). -/
theorem tap_auto_miss_no_score_delta
    (s : GameState) (n : ActiveNote) (duration t : Int)
    (hp : s.isPaused = false) (he : s.hasEnded = false)
    (hn : s.notes = [n])
    (htype : n.type = NoteType.CLICK) (hstate : n.hitState = HitState.NONE)
    (hvis : n.visible = true)
    (hend : ¬ duration + 2000 < t)
    (hlate : n.time + 200 < t) :
    (tick duration false t s).notes = [{ n with hitState := HitState.MISSED }] ∧
    (tick duration false t s).combo = 0 ∧
    (tick duration false t s).score.miss = s.score.miss + 1 ∧
    (tick duration false t s).score.score = s.score.score := by
  have hnh : ∀ m ∈ ({ s with currentTime := t } : GameState).notes,
      m.hitState ≠ HitState.HOLDING := by
    intro m hm
    simp only [hn] at hm
    simp only [List.mem_singleton] at hm
    rw [hm, hstate]
    exact fun hc => HitState.noConfusion hc
  unfold tick
  rw [if_neg (by simp [hp])]
  rw [if_neg (by simp [he, hend])]
  rw [holdEndPass_no_holding _ hnh]
  unfold noteScanPass
  simp only [hn, List.foldl_cons, List.foldl_nil]
  unfold noteScanStep
  rw [if_neg (by simp [hvis])]
  rw [if_neg (by simp [hstate])]
  rw [if_neg (by simp [htype])]
  rw [if_pos (by
    dsimp only
    refine ⟨?_, hstate⟩
    unfold HIT_WINDOWS_MISS
    omega)]
  rw [if_neg (by simp [htype])]
  simp [updateNote, hn]

/-- Witness for the amended C3 at the concrete scenario-C round. -/
theorem tap_auto_miss_no_score_delta_witness :
    (tick 60000 false 1201 (handleRestart tapMap [])).notes =
      [{ id := 1, time := 1000, type := NoteType.CLICK, lane := 0, holdDuration := none,
         speedMultiplier := none, requireRelease := none, mutationType := none,
         mutationCount := none, hitState := HitState.MISSED, visible := true }] ∧
    (tick 60000 false 1201 (handleRestart tapMap [])).combo = 0 ∧
    (tick 60000 false 1201 (handleRestart tapMap [])).score.miss =
      (handleRestart tapMap []).score.miss + 1 ∧
    (tick 60000 false 1201 (handleRestart tapMap [])).score.score =
      (handleRestart tapMap []).score.score :=
  tap_auto_miss_no_score_delta (handleRestart tapMap [])
    { id := 1, time := 1000, type := NoteType.CLICK, lane := 0, holdDuration := none,
      speedMultiplier := none, requireRelease := none, mutationType := none,
      mutationCount := none, hitState := HitState.NONE, visible := true }
    60000 1201 (by decide) (by decide) (by decide) (by decide) (by decide) (by decide)
    (by decide) (by decide)

/-- Mutation spawning never changes the score, combo, clock, input or hold
bookkeeping of the round: it only touches the note list, the id counter and
the random stream. -/
theorem handleNoteMutation_fields (s : GameState) (p : ActiveNote) :
    (handleNoteMutation s p).score = s.score ∧
    (handleNoteMutation s p).combo = s.combo ∧
    (handleNoteMutation s p).currentTime = s.currentTime ∧
    (handleNoteMutation s p).pressedInputs = s.pressedInputs ∧
    (handleNoteMutation s p).activeHoldNoteIds = s.activeHoldNoteIds ∧
    (handleNoteMutation s p).hasEnded = s.hasEnded ∧
    (handleNoteMutation s p).isPaused = s.isPaused ∧
    (handleNoteMutation s p).events = s.events ∧
    (handleNoteMutation s p).targetGlobalSpeedMultiplier = s.targetGlobalSpeedMultiplier := by
  cases hmt : p.mutationType <;> simp [handleNoteMutation, hmt]

/-- Mutation spawning is the identity on a parent without a mutation
kind. -/
theorem handleNoteMutation_none (s : GameState) (p : ActiveNote)
    (h : p.mutationType = none) : handleNoteMutation s p = s := by
  simp [handleNoteMutation, h]

/-- The note list after a mutation spawn from a parent with a mutation
kind. -/
theorem handleNoteMutation_some (s : GameState) (p : ActiveNote) (mt : NoteType)
    (h : p.mutationType = some mt) :
    (handleNoteMutation s p).notes =
      sortByTime (s.notes ++
        spawnNotes mt p.speedMultiplier s.currentTime (effMutationCount p) s.nextId s.rng) := by
  simp [handleNoteMutation, h]

/-- A tick over a round holding a single pending HOLD_CLICK note inside its
past 200ms window with an input held: the whole tick is the auto-hit of that
note (Hit and hidden, combo and perfect tally up, perfect score delta)
followed by its mutation spawn. -/
theorem tick_holdclick_singleton
    (s : GameState) (n : ActiveNote) (duration t : Int)
    (hp : s.isPaused = false) (he : s.hasEnded = false)
    (hn : s.notes = [n])
    (htype : n.type = NoteType.HOLD_CLICK) (hstate : n.hitState = HitState.NONE)
    (hvis : n.visible = true)
    (hpress : s.pressedInputs ≠ [])
    (hend : ¬ duration + 2000 < t)
    (hlo : n.time ≤ t) (hhi : t ≤ n.time + 200) :
    tick duration false t s =
      handleNoteMutation
        { s with
          currentTime := t
          notes := [{ n with hitState := HitState.HIT, visible := false }]
          combo := s.combo + 1
          score := { s.score with
            perfect := s.score.perfect + 1
            score := s.score.score + SCORES_PERFECT } } n := by
  have hnh : ∀ m ∈ ({ s with currentTime := t } : GameState).notes,
      m.hitState ≠ HitState.HOLDING := by
    intro m hm
    simp only [hn, List.mem_singleton] at hm
    rw [hm, hstate]
    exact fun hc => HitState.noConfusion hc
  unfold tick
  rw [if_neg (by simp [hp])]
  rw [if_neg (by simp [he, hend])]
  rw [holdEndPass_no_holding _ hnh]
  unfold noteScanPass
  simp only [hn, List.foldl_cons, List.foldl_nil]
  unfold noteScanStep
  rw [if_neg (by simp [hvis])]
  rw [if_neg (by simp [hstate])]
  rw [if_pos (by
    dsimp only
    refine ⟨htype, hstate, by omega, ?_, hpress⟩
    unfold HIT_WINDOWS_MISS
    omega)]
  simp [updateNote]

/-- C10: while at least one input is held, a pending SyncTap (HOLD_CLICK)
note alone in the round auto-resolves to Hit during any tick whose song time
lies in [time, time + 200]: without any press event the combo and the
perfect tally go up by one, the score goes up by the perfect delta +100, and
the mutation of the note (when present) spawns its notes. -/
theorem holdclick_auto_hit
    (s : GameState) (n : ActiveNote) (duration t : Int)
    (hp : s.isPaused = false) (he : s.hasEnded = false)
    (hn : s.notes = [n])
    (htype : n.type = NoteType.HOLD_CLICK) (hstate : n.hitState = HitState.NONE)
    (hvis : n.visible = true)
    (hpress : s.pressedInputs ≠ [])
    (hend : ¬ duration + 2000 < t)
    (hlo : n.time ≤ t) (hhi : t ≤ n.time + 200) :
    (tick duration false t s).combo = s.combo + 1 ∧
    (tick duration false t s).score.perfect = s.score.perfect + 1 ∧
    (tick duration false t s).score.score = s.score.score + 100 ∧
    (n.mutationType = none →
      (tick duration false t s).notes = [{ n with hitState := HitState.HIT, visible := false }]) ∧
    (∀ mt, n.mutationType = some mt →
      (tick duration false t s).notes =
        sortByTime ([{ n with hitState := HitState.HIT, visible := false }] ++
          spawnNotes mt n.speedMultiplier t (effMutationCount n) s.nextId s.rng)) := by
  rw [tick_holdclick_singleton s n duration t hp he hn htype hstate hvis hpress hend hlo hhi]
  refine ⟨?_, ?_, ?_, ?_, ?_⟩
  · rw [(handleNoteMutation_fields _ _).2.1]
  · rw [(handleNoteMutation_fields _ _).1]
  · rw [(handleNoteMutation_fields _ _).1]
    simp [SCORES_PERFECT]
  · intro hmt
    rw [handleNoteMutation_none _ _ hmt]
  · intro mt hmt
    rw [handleNoteMutation_some _ _ mt hmt]

/-- Witness for C10 at a concrete round: a HOLD_CLICK at 1000ms with a
two-note Tap mutation, one input held, tick at 1100ms. -/
theorem holdclick_auto_hit_witness :
    (tick 60000 false 1100 syncMutHeld).combo = syncMutHeld.combo + 1 ∧
    (tick 60000 false 1100 syncMutHeld).score.perfect = syncMutHeld.score.perfect + 1 ∧
    (tick 60000 false 1100 syncMutHeld).score.score = syncMutHeld.score.score + 100 ∧
    (∀ mt,
      ({ id := 1, time := 1000, type := NoteType.HOLD_CLICK, lane := 0, holdDuration := none,
         speedMultiplier := none, requireRelease := none, mutationType := some NoteType.CLICK,
         mutationCount := some 2, hitState := HitState.NONE, visible := true } : ActiveNote).mutationType =
          some mt →
      (tick 60000 false 1100 syncMutHeld).notes =
        sortByTime ([{ id := 1, time := 1000, type := NoteType.HOLD_CLICK, lane := 0,
                       holdDuration := none, speedMultiplier := none, requireRelease := none,
                       mutationType := some NoteType.CLICK, mutationCount := some 2,
                       hitState := HitState.HIT, visible := false }] ++
          spawnNotes mt none 1100
            (effMutationCount
              { id := 1, time := 1000, type := NoteType.HOLD_CLICK, lane := 0, holdDuration := none,
                speedMultiplier := none, requireRelease := none, mutationType := some NoteType.CLICK,
                mutationCount := some 2, hitState := HitState.NONE, visible := true })
            syncMutHeld.nextId syncMutHeld.rng)) :=
  let n : ActiveNote :=
    { id := 1, time := 1000, type := NoteType.HOLD_CLICK, lane := 0, holdDuration := none,
      speedMultiplier := none, requireRelease := none, mutationType := some NoteType.CLICK,
      mutationCount := some 2, hitState := HitState.NONE, visible := true }
  have h := holdclick_auto_hit syncMutHeld n 60000 1100 (by decide) (by decide) (by decide)
    (by decide) (by decide) (by decide) (by decide) (by decide) (by decide) (by decide)
  ⟨h.1, h.2.1, h.2.2.1, h.2.2.2.2⟩

/-- Folding mutation spawns over a list of parents preserves the score and
the combo. -/
theorem foldl_handleNoteMutation_score (l : List ActiveNote) (s : GameState) :
    (l.foldl (fun acc p => handleNoteMutation acc p) s).score = s.score ∧
    (l.foldl (fun acc p => handleNoteMutation acc p) s).combo = s.combo := by
  induction l generalizing s with
  | nil => exact ⟨rfl, rfl⟩
  | cons p l ih =>
    rw [List.foldl_cons]
    obtain ⟨h1, h2⟩ := ih (handleNoteMutation s p)
    exact ⟨h1.trans (handleNoteMutation_fields s p).1,
      h2.trans (handleNoteMutation_fields s p).2.1⟩

/-- The synchronous auto-hit scan never touches the max combo, and only
ever adds to the combo. -/
theorem applySyncHits_maxCombo (t0 : Int) (s : GameState) :
    (applySyncHits t0 s).score.maxCombo = s.score.maxCombo ∧
    ∃ k, (applySyncHits t0 s).combo = s.combo + k := by
  unfold applySyncHits
  refine ⟨?_, ?_⟩
  · rw [(foldl_handleNoteMutation_score _ _).1]
  · exact ⟨_, (foldl_handleNoteMutation_score _ _).2⟩

/-- An accepted (perfect or good) primary press sets the max combo to the
maximum of the old max combo and the incremented combo, before any sync
auto-hits add further combo steps. -/
theorem processHit_accepted_maxCombo
    (settings : GameSettings) (laneIndex keyName : Option Nat) (inputId : Nat)
    (s : GameState) (targetLane : Option Nat) (target : ActiveNote)
    (hp : s.isPaused = false) (he : s.hasEnded = false)
    (hin : inputId ∉ s.pressedInputs)
    (hlane : resolveTargetLane settings laneIndex keyName = some targetLane)
    (hpick : pickBest s.currentTime
      (collectCandidates settings targetLane s.currentTime s.notes) = some target)
    (hmine : ¬ target.type = NoteType.MINE)
    (hband : |target.time - s.currentTime| ≤ 150) :
    (processHit settings laneIndex keyName inputId s).score.maxCombo =
      max s.score.maxCombo (s.combo + 1) ∧
    ∃ k, (processHit settings laneIndex keyName inputId s).combo = s.combo + 1 + k := by
  have hpos : 0 < scoreAddFor |target.time - s.currentTime| := by
    unfold scoreAddFor HIT_WINDOWS_PERFECT HIT_WINDOWS_GOOD SCORES_PERFECT SCORES_GOOD
    split_ifs <;> omega
  unfold processHit
  simp only [hp, he, Bool.false_eq_true, or_self, if_false, hin, not_false_eq_true,
    if_neg, hlane, hpick, hmine]
  rcases hsm : target.speedMultiplier with _ | v <;>
    simp only [hsm] <;> rw [if_pos hpos] <;> split_ifs <;>
    (refine ⟨?_, ?_⟩
     · dsimp only
       rw [(applySyncHits_maxCombo _ _).1, (handleNoteMutation_fields _ _).1]
     · dsimp only
       obtain ⟨k, hk⟩ := (applySyncHits_maxCombo target.time _).2
       refine ⟨k, ?_⟩
       rw [hk, (handleNoteMutation_fields _ _).2.1])

/-- C4 counterexample: a press at 1000ms on the Tap at 1000ms also
sync-auto-resolves the SyncTap at 1020ms; the combo ends at 2 but the max
combo at 1, so after that operation maxCombo < combo: the sync auto-hit
incremented the combo without updating the max combo. -/
theorem maxCombo_sync_counterexample :
    (processHit settingsAll none none 0
        (tick 60000 false 1000 (handleRestart syncPairMap []))).combo = 2 ∧
    (processHit settingsAll none none 0
        (tick 60000 false 1000 (handleRestart syncPairMap []))).score.maxCombo = 1 ∧
    ¬ (processHit settingsAll none none 0
          (tick 60000 false 1000 (handleRestart syncPairMap []))).combo ≤
        (processHit settingsAll none none 0
            (tick 60000 false 1000 (handleRestart syncPairMap []))).score.maxCombo := by
  decide

/-- C4 amended: maxCombo is updated to max(maxCombo, combo) only on the
combo increment of the primary accepted press; the combo increments of the
50ms sync auto-resolution and of the tick-driven HOLD_CLICK auto-hit leave
maxCombo unchanged, so maxCombo ≥ combo need not hold after them. -/
theorem maxCombo_primary_press_only :
    (∀ (settings : GameSettings) (laneIndex keyName : Option Nat) (inputId : Nat)
        (s : GameState) (targetLane : Option Nat) (target : ActiveNote),
      s.isPaused = false → s.hasEnded = false → inputId ∉ s.pressedInputs →
      resolveTargetLane settings laneIndex keyName = some targetLane →
      pickBest s.currentTime
        (collectCandidates settings targetLane s.currentTime s.notes) = some target →
      ¬ target.type = NoteType.MINE →
      |target.time - s.currentTime| ≤ 150 →
      (processHit settings laneIndex keyName inputId s).score.maxCombo =
        max s.score.maxCombo (s.combo + 1) ∧
      ∃ k, (processHit settings laneIndex keyName inputId s).combo = s.combo + 1 + k) ∧
    (∀ (s : GameState) (n : ActiveNote) (duration t : Int),
      s.isPaused = false → s.hasEnded = false → s.notes = [n] →
      n.type = NoteType.HOLD_CLICK → n.hitState = HitState.NONE → n.visible = true →
      s.pressedInputs ≠ [] → ¬ duration + 2000 < t → n.time ≤ t → t ≤ n.time + 200 →
      (tick duration false t s).combo = s.combo + 1 ∧
      (tick duration false t s).score.maxCombo = s.score.maxCombo) :=
  ⟨fun settings li kn i s tl tg hp he hin hlane hpick hmine hband =>
    processHit_accepted_maxCombo settings li kn i s tl tg hp he hin hlane hpick hmine hband,
   fun s n duration t hp he hn ht hs hv hpr hend hlo hhi => by
    rw [tick_holdclick_singleton s n duration t hp he hn ht hs hv hpr hend hlo hhi]
    refine ⟨(handleNoteMutation_fields _ _).2.1, ?_⟩
    rw [(handleNoteMutation_fields _ _).1]⟩

/-- Witness for the amended C4: both parts at concrete rounds (the
scenario of the counterexample for the press, the mutation round for the
tick). -/
theorem maxCombo_primary_press_only_witness :
    ((processHit settingsAll none none 0
          (tick 60000 false 1000 (handleRestart syncPairMap []))).score.maxCombo =
        max (tick 60000 false 1000 (handleRestart syncPairMap [])).score.maxCombo
          ((tick 60000 false 1000 (handleRestart syncPairMap [])).combo + 1) ∧
      ∃ k, (processHit settingsAll none none 0
          (tick 60000 false 1000 (handleRestart syncPairMap []))).combo =
        (tick 60000 false 1000 (handleRestart syncPairMap [])).combo + 1 + k) ∧
    ((tick 60000 false 1100 syncMutHeld).combo = syncMutHeld.combo + 1 ∧
      (tick 60000 false 1100 syncMutHeld).score.maxCombo = syncMutHeld.score.maxCombo) :=
  ⟨maxCombo_primary_press_only.1 settingsAll none none 0
      (tick 60000 false 1000 (handleRestart syncPairMap [])) none
      { id := 1, time := 1000, type := NoteType.CLICK, lane := 0, holdDuration := none,
        speedMultiplier := none, requireRelease := none, mutationType := none,
        mutationCount := none, hitState := HitState.NONE, visible := true }
      (by decide) (by decide) (by decide) (by decide) (by decide) (by decide) (by decide),
   maxCombo_primary_press_only.2 syncMutHeld
      { id := 1, time := 1000, type := NoteType.HOLD_CLICK, lane := 0, holdDuration := none,
        speedMultiplier := none, requireRelease := none, mutationType := some NoteType.CLICK,
        mutationCount := some 2, hitState := HitState.NONE, visible := true }
      60000 1100
      (by decide) (by decide) (by decide) (by decide) (by decide) (by decide) (by decide)
      (by decide) (by decide) (by decide)⟩

/-- Release evaluation always leaves the Holding state (Hit or Missed). -/
theorem releaseEval_not_holding (t : Int) (sc : ScoreState) (c : Nat) (n : ActiveNote) :
    (releaseEval t sc c n).1.hitState ≠ HitState.HOLDING := by
  unfold releaseEval
  dsimp only
  split_ifs <;> simp

/-- Release evaluation keeps the id of the note. -/
theorem releaseEval_id (t : Int) (sc : ScoreState) (c : Nat) (n : ActiveNote) :
    (releaseEval t sc c n).1.id = n.id := by
  unfold releaseEval
  dsimp only
  split_ifs <;> rfl

/-- A member of an updated note list is an untouched note of a different id
or the image of a note with the written id. -/
theorem mem_updateNote (i : Nat) (f : ActiveNote → ActiveNote) (l : List ActiveNote)
    (m : ActiveNote) (hm : m ∈ updateNote i f l) :
    (m ∈ l ∧ m.id ≠ i) ∨ ∃ n ∈ l, n.id = i ∧ m = f n := by
  unfold updateNote at hm
  rcases List.mem_map.mp hm with ⟨a, ha, hEq⟩
  by_cases hi : a.id = i
  · exact Or.inr ⟨a, ha, hi, by rw [← hEq, if_pos hi]⟩
  · refine Or.inl ⟨?_, ?_⟩
    · rw [← hEq, if_neg hi]
      exact ha
    · rw [← hEq, if_neg hi]
      exact hi

/-- One release iteration removes exactly its id from the held-note set. -/
theorem releaseStep_holdIds (acc : GameState) (i : Nat) :
    (releaseStep acc i).activeHoldNoteIds =
      acc.activeHoldNoteIds.filter (fun x => x ≠ i) := by
  unfold releaseStep
  cases hf : acc.notes.find? (fun n => n.id = i)
  · rfl
  · dsimp only
    split_ifs <;> rfl

/-- One release iteration never makes a note of a given id Holding when no
note of that id was. -/
theorem releaseStep_not_holding_of (acc : GameState) (i j : Nat)
    (h : ∀ m ∈ acc.notes, m.id = j → m.hitState ≠ HitState.HOLDING) :
    ∀ m ∈ (releaseStep acc i).notes, m.id = j → m.hitState ≠ HitState.HOLDING := by
  intro m hm hid
  unfold releaseStep at hm
  cases hf : acc.notes.find? (fun n => n.id = i) with
  | none =>
    rw [hf] at hm
    exact h m hm hid
  | some n =>
    rw [hf] at hm
    dsimp only at hm
    by_cases hh : n.hitState = HitState.HOLDING
    · rw [if_pos hh] at hm
      dsimp only at hm
      rcases mem_updateNote i _ acc.notes m hm with ⟨hmem, -⟩ | ⟨n0, hn0, -, rfl⟩
      · exact h m hmem hid
      · exact releaseEval_not_holding _ _ _ _
    · rw [if_neg hh] at hm
      exact h m hm hid

/-- After one release iteration, no note of the processed id is Holding
(given pairwise distinct note ids). -/
theorem releaseStep_resolves_own (acc : GameState) (i : Nat)
    (hnodup : (acc.notes.map ActiveNote.id).Nodup) :
    ∀ m ∈ (releaseStep acc i).notes, m.id = i → m.hitState ≠ HitState.HOLDING := by
  intro m hm hid
  unfold releaseStep at hm
  cases hf : acc.notes.find? (fun n => n.id = i) with
  | none =>
    rw [hf] at hm
    have := List.find?_eq_none.mp hf m hm
    simp [hid] at this
  | some n =>
    rw [hf] at hm
    dsimp only at hm
    have hni : n.id = i := by simpa using List.find?_some hf
    have hnmem : n ∈ acc.notes := List.mem_of_find?_eq_some hf
    by_cases hh : n.hitState = HitState.HOLDING
    · rw [if_pos hh] at hm
      dsimp only at hm
      rcases mem_updateNote i _ acc.notes m hm with ⟨-, hne⟩ | ⟨n0, hn0, -, rfl⟩
      · exact absurd hid hne
      · exact releaseEval_not_holding _ _ _ _
    · rw [if_neg hh] at hm
      have hmn : m = n :=
        List.inj_on_of_nodup_map hnodup hm hnmem (by rw [hid, hni])
      rw [hmn]
      exact hh

/-- One release iteration keeps the id sequence of the note list. -/
theorem releaseStep_ids (acc : GameState) (i : Nat) :
    (releaseStep acc i).notes.map ActiveNote.id = acc.notes.map ActiveNote.id := by
  unfold releaseStep
  cases hf : acc.notes.find? (fun n => n.id = i) with
  | none => rfl
  | some n =>
    dsimp only
    have hni : n.id = i := by simpa using List.find?_some hf
    split_ifs with hh
    · dsimp only
      unfold updateNote
      rw [List.map_map]
      apply List.map_congr_left
      intro a ha
      by_cases hai : a.id = i
      · simp [hai, releaseEval_id, hni]
      · simp only [Function.comp_apply, if_neg hai]
    · rfl

/-- One release iteration only ever carries Holding notes over
unchanged. -/
theorem releaseStep_holding_mem (acc : GameState) (i : Nat) (m : ActiveNote)
    (hm : m ∈ (releaseStep acc i).notes) (hh : m.hitState = HitState.HOLDING) :
    m ∈ acc.notes := by
  unfold releaseStep at hm
  cases hf : acc.notes.find? (fun n => n.id = i) with
  | none =>
    rw [hf] at hm
    exact hm
  | some n =>
    rw [hf] at hm
    dsimp only at hm
    by_cases hhn : n.hitState = HitState.HOLDING
    · rw [if_pos hhn] at hm
      dsimp only at hm
      rcases mem_updateNote i _ acc.notes m hm with ⟨hmem, -⟩ | ⟨n0, hn0, -, rfl⟩
      · exact hmem
      · exact absurd hh (releaseEval_not_holding _ _ _ _)
    · rw [if_neg hhn] at hm
      exact hm

/-- Membership in the held-note set after the release fold: survivors were
held before and their id was not processed. -/
theorem foldl_releaseStep_holdIds (ids : List Nat) (acc : GameState) (x : Nat)
    (hx : x ∈ (ids.foldl releaseStep acc).activeHoldNoteIds) :
    x ∈ acc.activeHoldNoteIds ∧ x ∉ ids := by
  induction ids generalizing acc with
  | nil =>
    exact ⟨hx, by simp⟩
  | cons i ids ih =>
    rw [List.foldl_cons] at hx
    obtain ⟨h1, h2⟩ := ih (releaseStep acc i) hx
    rw [releaseStep_holdIds] at h1
    have h3 := List.of_mem_filter h1
    have h4 := List.mem_of_mem_filter h1
    refine ⟨h4, ?_⟩
    simp only [List.mem_cons, not_or]
    refine ⟨?_, h2⟩
    intro hxi
    rw [hxi] at h3
    simp at h3

/-- Folding the release step never makes a note of a given id Holding when
no note of that id was. -/
theorem foldl_releaseStep_preserves (ids : List Nat) (acc : GameState) (j : Nat)
    (h : ∀ m ∈ acc.notes, m.id = j → m.hitState ≠ HitState.HOLDING) :
    ∀ m ∈ (ids.foldl releaseStep acc).notes, m.id = j → m.hitState ≠ HitState.HOLDING := by
  induction ids generalizing acc with
  | nil => exact h
  | cons i ids ih =>
    rw [List.foldl_cons]
    exact ih (releaseStep acc i) (releaseStep_not_holding_of acc i j h)

/-- After folding the release step over a list of ids, no note carrying one
of those ids is Holding (given pairwise distinct note ids). -/
theorem foldl_releaseStep_resolves (ids : List Nat) (acc : GameState)
    (hnodup : (acc.notes.map ActiveNote.id).Nodup) :
    ∀ j ∈ ids, ∀ m ∈ (ids.foldl releaseStep acc).notes, m.id = j →
      m.hitState ≠ HitState.HOLDING := by
  induction ids generalizing acc with
  | nil => simp
  | cons i ids ih =>
    intro j hj m hm hid
    rw [List.foldl_cons] at hm
    have hnodup2 : ((releaseStep acc i).notes.map ActiveNote.id).Nodup := by
      rw [releaseStep_ids]
      exact hnodup
    rcases List.mem_cons.mp hj with rfl | hj
    · exact foldl_releaseStep_preserves ids (releaseStep acc j) j
        (releaseStep_resolves_own acc j hnodup) m hm hid
    · exact ih (releaseStep acc i) hnodup2 j hj m hm hid

/-- Folding the release step only ever carries Holding notes over
unchanged. -/
theorem foldl_releaseStep_holding_mem (ids : List Nat) (acc : GameState) (m : ActiveNote)
    (hm : m ∈ (ids.foldl releaseStep acc).notes) (hh : m.hitState = HitState.HOLDING) :
    m ∈ acc.notes := by
  induction ids generalizing acc with
  | nil => exact hm
  | cons i ids ih =>
    rw [List.foldl_cons] at hm
    exact releaseStep_holding_mem acc i m (ih (releaseStep acc i) hm) hh

/-- Folding the release step over the whole held-note set empties it and
leaves no tracked Holding note (given pairwise distinct note ids). -/
theorem releaseFold_resolves_all (s0 : GameState)
    (hnodup : (s0.notes.map ActiveNote.id).Nodup)
    (htrack : ∀ n ∈ s0.notes, n.hitState = HitState.HOLDING → n.id ∈ s0.activeHoldNoteIds) :
    (s0.activeHoldNoteIds.foldl releaseStep s0).activeHoldNoteIds = [] ∧
    ∀ n ∈ (s0.activeHoldNoteIds.foldl releaseStep s0).notes,
      n.hitState ≠ HitState.HOLDING := by
  refine ⟨?_, ?_⟩
  · refine List.eq_nil_iff_forall_not_mem.mpr (fun x hx => ?_)
    obtain ⟨h1, h2⟩ := foldl_releaseStep_holdIds s0.activeHoldNoteIds s0 x hx
    exact h2 h1
  · intro n hn hh
    have hmem : n ∈ s0.notes := foldl_releaseStep_holding_mem s0.activeHoldNoteIds s0 n hn hh
    exact foldl_releaseStep_resolves s0.activeHoldNoteIds s0 hnodup n.id
      (htrack n hmem hh) n hn rfl hh

/-- C6 counterexample: on the scenario-E round (Hold at 2000ms, 500ms
duration, required release, pressed at 2000ms), the release at song time
2660 does not resolve the note Hit: 2660 is 160ms past the 2500 end time,
outside the 150ms window, so the note ends Missed with the miss tally at 1
and the combo at 0 (the 2660 tick itself already force-misses the
still-held note), and the score stays at the 100 of the press. -/
theorem hold_release_2660_counterexample :
    ((processRelease 0 (tick 60000 false 2660 holdHolding)).notes.map (fun n => n.hitState) =
      [HitState.MISSED]) ∧
    (processRelease 0 (tick 60000 false 2660 holdHolding)).score.miss = 1 ∧
    (processRelease 0 (tick 60000 false 2660 holdHolding)).combo = 0 ∧
    (processRelease 0 (tick 60000 false 2660 holdHolding)).score.score = 100 ∧
    ¬ ((processRelease 0 (tick 60000 false 2660 holdHolding)).notes.map (fun n => n.hitState) =
      [HitState.HIT]) := by
  decide

/-- C6 amended: while at least one input remains held, a release resolves no
Holding note (it only shrinks the held-input set); on the scenario-E round,
releasing the last input at 2610ms (110ms past the 2500 end time, inside the
150ms window) resolves the Hold Hit with the perfect score delta, while
still holding at 2700ms (more than 150ms past the end time) force-resolves
it Missed with combo reset and miss tally up; and releasing the last held
input release-evaluates every tracked Holding note and empties the held-note
set. -/
theorem hold_release_windows :
    (∀ (s : GameState) (inputId : Nat),
      s.pressedInputs.filter (fun x => x ≠ inputId) ≠ [] →
      processRelease inputId s =
        { s with pressedInputs := s.pressedInputs.filter (fun x => x ≠ inputId) }) ∧
    ((processRelease 0 (tick 60000 false 2610 holdHolding)).notes.map (fun n => n.hitState) =
        [HitState.HIT] ∧
      (processRelease 0 (tick 60000 false 2610 holdHolding)).score.score = 200 ∧
      (processRelease 0 (tick 60000 false 2610 holdHolding)).score.miss = 0) ∧
    ((tick 60000 false 2700 holdHolding).notes.map (fun n => n.hitState) = [HitState.MISSED] ∧
      (tick 60000 false 2700 holdHolding).combo = 0 ∧
      (tick 60000 false 2700 holdHolding).score.miss = 1) ∧
    (∀ (s : GameState) (inputId : Nat),
      s.isPaused = false → s.hasEnded = false →
      s.pressedInputs.filter (fun x => x ≠ inputId) = [] →
      (s.notes.map ActiveNote.id).Nodup →
      (∀ n ∈ s.notes, n.hitState = HitState.HOLDING → n.id ∈ s.activeHoldNoteIds) →
      (processRelease inputId s).activeHoldNoteIds = [] ∧
      ∀ n ∈ (processRelease inputId s).notes, n.hitState ≠ HitState.HOLDING) := by
  refine ⟨?_, by decide, by decide, ?_⟩
  · intro s inputId h
    unfold processRelease
    dsimp only
    split_ifs with h1 <;> rfl
  · intro s inputId hp he hlast hnodup htrack
    unfold processRelease
    dsimp only
    rw [if_neg (by simp [hp, he])]
    rw [if_neg (fun hc => hc hlast)]
    exact releaseFold_resolves_all
      { s with pressedInputs := s.pressedInputs.filter (fun x => x ≠ inputId) } hnodup htrack

/-- Witness for the amended C6: the sustained-hold no-op at a round with two
held inputs, and the full release resolution at the scenario-E round. -/
theorem hold_release_windows_witness :
    (processRelease 7 twoHeldState =
      { twoHeldState with
        pressedInputs := twoHeldState.pressedInputs.filter (fun x => x ≠ 7) }) ∧
    ((processRelease 0 (tick 60000 false 2610 holdHolding)).activeHoldNoteIds = [] ∧
      ∀ n ∈ (processRelease 0 (tick 60000 false 2610 holdHolding)).notes,
        n.hitState ≠ HitState.HOLDING) :=
  ⟨hold_release_windows.1 twoHeldState 7 (by decide),
   hold_release_windows.2.2.2 (tick 60000 false 2610 holdHolding) 0 (by decide) (by decide)
     (by decide) (by decide) (by decide)⟩

/-- Stable insertion preserves membership. -/
theorem mem_insertBy {α : Type} (key : α → Int) (x a : α) (l : List α) :
    a ∈ insertBy key x l ↔ a = x ∨ a ∈ l := by
  induction l with
  | nil => simp [insertBy]
  | cons y rest ih =>
    unfold insertBy
    split_ifs with h
    · simp [List.mem_cons]
    · simp only [List.mem_cons, ih]
      tauto

/-- Stable insertion adds one to the length. -/
theorem length_insertBy {α : Type} (key : α → Int) (x : α) (l : List α) :
    (insertBy key x l).length = l.length + 1 := by
  induction l with
  | nil => rfl
  | cons y rest ih =>
    unfold insertBy
    split_ifs with h
    · rfl
    · simp [ih]

/-- The stable sort preserves membership. -/
theorem mem_sortBy {α : Type} (key : α → Int) (a : α) (l : List α) :
    a ∈ sortBy key l ↔ a ∈ l := by
  suffices h : ∀ (l2 : List α) (acc : List α),
      a ∈ l2.foldl (fun acc x => insertBy key x acc) acc ↔ a ∈ acc ∨ a ∈ l2 by
    unfold sortBy
    rw [h l []]
    simp
  intro l2
  induction l2 with
  | nil => simp
  | cons x rest ih =>
    intro acc
    rw [List.foldl_cons, ih (insertBy key x acc), mem_insertBy]
    simp only [List.mem_cons]
    tauto

/-- The stable sort preserves length. -/
theorem length_sortBy {α : Type} (key : α → Int) (l : List α) :
    (sortBy key l).length = l.length := by
  suffices h : ∀ (l2 : List α) (acc : List α),
      (l2.foldl (fun acc x => insertBy key x acc) acc).length = acc.length + l2.length by
    unfold sortBy
    rw [h l []]
    simp
  intro l2
  induction l2 with
  | nil => simp
  | cons x rest ih =>
    intro acc
    rw [List.foldl_cons, ih (insertBy key x acc), length_insertBy]
    simp only [List.length_cons]
    omega

/-- C9 counterexample: handleRestart on a beatmap full of invalid authoring
data (a note at time -5, a Hold with a zero hold duration, a mutation count
of 99, an event at time -10) starts the round: every invalid note is
rehydrated pending and unchanged, the invalid event is kept, and no error
is raised - there is no rejection or coercion anywhere in round start. -/
theorem invalid_beatmap_starts_counterexample :
    (handleRestart badMap []).notes.map (fun n => (n.id, n.time, n.hitState)) =
      [(1, (-5 : Int), HitState.NONE), (3, 50, HitState.NONE), (2, 100, HitState.NONE)] ∧
    (handleRestart badMap []).notes.map (fun n => n.holdDuration) = [none, none, some 0] ∧
    (handleRestart badMap []).notes.map (fun n => n.mutationCount) = [none, some 99, none] ∧
    (handleRestart badMap []).events.map (fun e => e.time) = [-10] ∧
    (handleRestart badMap []).hasEnded = false := by
  decide

/-- C9 amended: round start performs no validation: handleRestart is total
and always yields a started round with the clock and score zeroed, the note
count preserved, and every authored note - a negative time, a non-positive
hold duration or an out-of-range mutation count included - rehydrated
unchanged as a pending visible runtime note; there is no
construction-error path. -/
theorem handleRestart_no_validation (beatmap : Beatmap) (rng : List Nat) :
    (handleRestart beatmap rng).notes = sortByTime (beatmap.notes.map initNote) ∧
    (handleRestart beatmap rng).notes.length = beatmap.notes.length ∧
    (∀ n ∈ beatmap.notes, initNote n ∈ (handleRestart beatmap rng).notes) ∧
    (handleRestart beatmap rng).hasEnded = false ∧
    (handleRestart beatmap rng).currentTime = 0 ∧
    (handleRestart beatmap rng).score =
      { perfect := 0, good := 0, miss := 0, minesHit := 0, maxCombo := 0, score := 0 } := by
  refine ⟨rfl, ?_, ?_, rfl, rfl, rfl⟩
  · show (sortByTime (beatmap.notes.map initNote)).length = beatmap.notes.length
    unfold sortByTime
    rw [length_sortBy, List.length_map]
  · intro n hn
    show initNote n ∈ sortByTime (beatmap.notes.map initNote)
    unfold sortByTime
    exact (mem_sortBy _ _ _).mpr (List.mem_map_of_mem initNote hn)

/-- Witness for the amended C9 at the invalid beatmap. -/
theorem handleRestart_no_validation_witness :
    (handleRestart badMap []).notes = sortByTime (badMap.notes.map initNote) ∧
    (handleRestart badMap []).notes.length = badMap.notes.length ∧
    (∀ n ∈ badMap.notes, initNote n ∈ (handleRestart badMap []).notes) ∧
    (handleRestart badMap []).hasEnded = false ∧
    (handleRestart badMap []).currentTime = 0 ∧
    (handleRestart badMap []).score =
      { perfect := 0, good := 0, miss := 0, minesHit := 0, maxCombo := 0, score := 0 } :=
  handleRestart_no_validation badMap []

/-- Mutation spawning on a parent without a mutation kind is the identity
(simp form). -/
theorem handleNoteMutation_id (p : ActiveNote) (hp : p.mutationType = none) :
    ∀ s : GameState, handleNoteMutation s p = s :=
  fun s => handleNoteMutation_none s p hp

/-- Folding mutation spawns over parents without mutation kinds is the
identity (simp form). -/
theorem foldl_handleNoteMutation_none (l : List ActiveNote)
    (h : ∀ p ∈ l, p.mutationType = none) :
    ∀ s : GameState, l.foldl (fun acc p => handleNoteMutation acc p) s = s := by
  induction l with
  | nil => exact fun s => rfl
  | cons p rest ih =>
    intro s
    rw [List.foldl_cons, handleNoteMutation_id p (h p (List.mem_cons_self p rest)),
      ih (fun q hq => h q (List.mem_cons_of_mem p hq))]

/-- Every mutation-spawned note has no mutation kind of its own. -/
theorem noMut_spawnNotes (mt : NoteType) (sm : Option Int) (t : Int) (c : Nat)
    (si : Nat) (rng : List Nat) (m : ActiveNote) (hm : m ∈ spawnNotes mt sm t c si rng) :
    m.mutationType = none := by
  unfold spawnNotes at hm
  rcases List.mem_map.mp hm with ⟨i, -, rfl⟩
  rfl

/-- Mutation spawning preserves the absence of mutation kinds. -/
theorem noMut_handleNoteMutation (s : GameState) (p : ActiveNote) (h : noMut s.notes) :
    noMut (handleNoteMutation s p).notes := by
  cases hmt : p.mutationType with
  | none =>
    rw [handleNoteMutation_id p hmt]
    exact h
  | some mt =>
    intro m hm
    rw [handleNoteMutation_some s p mt hmt] at hm
    unfold sortByTime at hm
    rcases List.mem_append.mp ((mem_sortBy _ _ _).mp hm) with h1 | h2
    · exact h m h1
    · exact noMut_spawnNotes _ _ _ _ _ _ m h2

/-- Folding mutation spawns preserves the absence of mutation kinds. -/
theorem noMut_foldl_handleNoteMutation (l : List ActiveNote) (s : GameState)
    (h : noMut s.notes) :
    noMut ((l.foldl (fun acc p => handleNoteMutation acc p) s).notes) := by
  induction l generalizing s with
  | nil => exact h
  | cons p rest ih =>
    rw [List.foldl_cons]
    exact ih (handleNoteMutation s p) (noMut_handleNoteMutation s p h)

/-- A pointwise note map that keeps mutation kinds preserves their
absence. -/
theorem noMut_map (g : ActiveNote → ActiveNote) (l : List ActiveNote) (h : noMut l)
    (hg : ∀ n, (g n).mutationType = n.mutationType) : noMut (l.map g) := by
  intro m hm
  rcases List.mem_map.mp hm with ⟨n, hn, rfl⟩
  rw [hg n]
  exact h n hn

/-- An id-targeted note update whose images carry no mutation kind preserves
the absence of mutation kinds. -/
theorem noMut_updateNote (i : Nat) (f : ActiveNote → ActiveNote) (l : List ActiveNote)
    (h : noMut l) (hf : ∀ n ∈ l, (f n).mutationType = none) :
    noMut (updateNote i f l) := by
  intro m hm
  rcases mem_updateNote i f l m hm with ⟨hm2, -⟩ | ⟨n0, hn0, -, rfl⟩
  · exact h m hm2
  · exact hf n0 hn0

/-- Two states with the same erased view differ only in the random
stream. -/
theorem eq_rng_update_of_stripRng {s t : GameState} (h : stripRng s = stripRng t) :
    t = { s with rng := t.rng } := by
  have h2 := congrArg (fun x : GameState => { x with rng := t.rng }) h
  simp only [stripRng] at h2
  exact h2.symm

/-- A fold whose step respects the erased view respects it, provided every
list element satisfies the step condition. -/
theorem foldl_stripRng_cong {β : Type} (step : GameState → β → GameState) (P : β → Prop)
    (hstep : ∀ (a b : GameState) (x : β), P x → stripRng a = stripRng b →
      stripRng (step a x) = stripRng (step b x))
    (l : List β) (hl : ∀ x ∈ l, P x) (a b : GameState)
    (hab : stripRng a = stripRng b) :
    stripRng (l.foldl step a) = stripRng (l.foldl step b) := by
  induction l generalizing a b with
  | nil => exact hab
  | cons x rest ih =>
    rw [List.foldl_cons, List.foldl_cons]
    exact ih (fun y hy => hl y (List.mem_cons_of_mem x hy)) _ _
      (hstep a b x (hl x (List.mem_cons_self x rest)) hab)

/-- A fold whose step keeps the absence of mutation kinds keeps it. -/
theorem noMut_foldl {β : Type} (step : GameState → β → GameState)
    (hstep : ∀ (acc : GameState) (x : β), noMut acc.notes → noMut (step acc x).notes)
    (l : List β) (s : GameState) (h : noMut s.notes) :
    noMut ((l.foldl step s).notes) := by
  induction l generalizing s with
  | nil => exact h
  | cons x rest ih =>
    rw [List.foldl_cons]
    exact ih (step s x) (hstep s x h)

/-- An id-targeted update that keeps every mutation kind keeps their
absence. -/
theorem noMut_updateNote_keep (i : Nat) (f : ActiveNote → ActiveNote) (l : List ActiveNote)
    (h : noMut l) (hf : ∀ n, (f n).mutationType = n.mutationType) :
    noMut (updateNote i f l) :=
  noMut_updateNote i f l h (fun n hn => (hf n).trans (h n hn))

/-- Release evaluation keeps the mutation kind of the note. -/
theorem releaseEval_mutationType (t : Int) (sc : ScoreState) (c : Nat) (n : ActiveNote) :
    (releaseEval t sc c n).1.mutationType = n.mutationType := by
  unfold releaseEval
  dsimp only
  split_ifs <;> rfl

/-- Every candidate of the scan is a note of the scanned list. -/
theorem mem_collectCandidates (settings : GameSettings) (tl : Option Nat) (t : Int)
    (l : List ActiveNote) (n : ActiveNote)
    (hn : n ∈ collectCandidates settings tl t l) : n ∈ l := by
  induction l with
  | nil => exact absurd hn (by simp [collectCandidates])
  | cons y rest ih =>
    unfold collectCandidates at hn
    split_ifs at hn
    · exact List.mem_cons_of_mem y (ih hn)
    · exact List.mem_cons_of_mem y (ih hn)
    · exact absurd hn (List.not_mem_nil n)
    · exact List.mem_cons_of_mem y (ih hn)
    · rcases List.mem_cons.mp hn with rfl | h2
      · exact List.mem_cons_self n rest
      · exact List.mem_cons_of_mem y (ih h2)

/-- The hold end-condition step keeps the absence of mutation kinds. -/
theorem noMut_holdEndStep (acc : GameState) (i : Nat) (h : noMut acc.notes) :
    noMut (holdEndStep acc i).notes := by
  unfold holdEndStep
  cases hf : acc.notes.find? (fun n => n.id = i) <;> dsimp only
  · exact h
  · split_ifs <;>
      first
        | exact h
        | exact noMut_updateNote_keep _ _ _ h (fun m => rfl)
        | exact noMut_updateNote_keep _ _ _
            (noMut_updateNote_keep _ _ _ h (fun m => rfl)) (fun m => rfl)

/-- The hold end-condition pass keeps the absence of mutation kinds. -/
theorem noMut_holdEndPass (s : GameState) (h : noMut s.notes) :
    noMut (holdEndPass s).notes :=
  noMut_foldl holdEndStep (fun acc x h2 => noMut_holdEndStep acc x h2)
    s.activeHoldNoteIds s h

/-- The note-head scan step keeps the absence of mutation kinds. -/
theorem noMut_noteScanStep (acc : GameState) (n : ActiveNote) (h : noMut acc.notes) :
    noMut (noteScanStep acc n).notes := by
  unfold noteScanStep
  dsimp only
  split_ifs <;>
    first
      | exact h
      | exact noMut_updateNote_keep _ _ _ h (fun m => rfl)
      | exact noMut_handleNoteMutation _ _ (noMut_updateNote_keep _ _ _ h (fun m => rfl))

/-- The note-head scan pass keeps the absence of mutation kinds. -/
theorem noMut_noteScanPass (s : GameState) (h : noMut s.notes) :
    noMut (noteScanPass s).notes :=
  noMut_foldl noteScanStep (fun acc x h2 => noMut_noteScanStep acc x h2) s.notes s h

/-- The tick keeps the absence of mutation kinds. -/
theorem noMut_tick (duration : Int) (ae : Bool) (nt : Int) (s : GameState)
    (h : noMut s.notes) : noMut (tick duration ae nt s).notes := by
  unfold tick
  dsimp only
  split_ifs <;>
    first
      | exact h
      | exact noMut_noteScanPass _ (noMut_holdEndPass _ h)

/-- The release step keeps the absence of mutation kinds. -/
theorem noMut_releaseStep (acc : GameState) (i : Nat) (h : noMut acc.notes) :
    noMut (releaseStep acc i).notes := by
  unfold releaseStep
  cases hf : acc.notes.find? (fun n => n.id = i) <;> dsimp only
  · exact h
  · split_ifs with hh
    · dsimp only
      refine noMut_updateNote _ _ _ h (fun m hm2 => ?_)
      rw [releaseEval_mutationType]
      exact h _ (List.mem_of_find?_eq_some hf)
    · exact h

/-- The release handler keeps the absence of mutation kinds. -/
theorem noMut_processRelease (inputId : Nat) (s : GameState) (h : noMut s.notes) :
    noMut (processRelease inputId s).notes := by
  unfold processRelease
  dsimp only
  split_ifs <;>
    first
      | exact h
      | exact noMut_foldl releaseStep (fun acc x h2 => noMut_releaseStep acc x h2) _ _ h

set_option maxHeartbeats 1000000 in
/-- The press handler keeps the absence of mutation kinds. -/
theorem noMut_processHit (settings : GameSettings) (laneIndex keyName : Option Nat)
    (inputId : Nat) (s : GameState) (h : noMut s.notes) :
    noMut (processHit settings laneIndex keyName inputId s).notes := by
  unfold processHit
  dsimp only
  cases hlane : resolveTargetLane settings laneIndex keyName with
  | none => split_ifs <;> exact h
  | some targetLane =>
    dsimp only
    cases hpick : pickBest s.currentTime
        (collectCandidates settings targetLane s.currentTime s.notes) with
    | none => split_ifs <;> exact h
    | some target =>
      dsimp only
      have hmt : target.mutationType = none :=
        h target (mem_collectCandidates _ _ _ _ target (pickBest_spec _ _ target hpick).1)
      have hfil : ∀ p ∈ s.notes.filter (fun n => decide (syncMatch target.time n)),
          p.mutationType = none := fun p hp => h p (List.mem_of_mem_filter hp)
      simp only [handleNoteMutation_id target hmt, applySyncHits]
      rcases hsm2 : target.speedMultiplier with _ | v <;>
        simp only [hsm2] <;> split_ifs <;> (try dsimp only) <;>
        first
          | exact h
          | exact noMut_updateNote_keep _ _ _ h (fun m => rfl)
          | (simp only [foldl_handleNoteMutation_none _ hfil]
             exact noMut_updateNote_keep _ _ _
               (noMut_map _ _ h
                 (fun m => by by_cases hc : syncMatch target.time m <;> simp [hc]))
               (fun m => rfl))

/-- The hold end-condition step depends only on the erased view. -/
theorem holdEndStep_stripRng (a b : GameState) (i : Nat)
    (hab : stripRng a = stripRng b) :
    stripRng (holdEndStep a i) = stripRng (holdEndStep b i) := by
  obtain ⟨rb, rfl⟩ : ∃ rb, b = { a with rng := rb } := ⟨b.rng, eq_rng_update_of_stripRng hab⟩
  unfold holdEndStep
  dsimp only
  cases hf : a.notes.find? (fun n => n.id = i) <;> dsimp only
  · rfl
  · split_ifs <;> rfl

/-- The release step depends only on the erased view. -/
theorem releaseStep_stripRng (a b : GameState) (i : Nat)
    (hab : stripRng a = stripRng b) :
    stripRng (releaseStep a i) = stripRng (releaseStep b i) := by
  obtain ⟨rb, rfl⟩ : ∃ rb, b = { a with rng := rb } := ⟨b.rng, eq_rng_update_of_stripRng hab⟩
  unfold releaseStep
  dsimp only
  cases hf : a.notes.find? (fun n => n.id = i) <;> dsimp only
  · rfl
  · split_ifs <;> rfl

/-- The note-head scan step on a note without a mutation kind depends only
on the erased view. -/
theorem noteScanStep_stripRng (a b : GameState) (n : ActiveNote)
    (hn : n.mutationType = none) (hab : stripRng a = stripRng b) :
    stripRng (noteScanStep a n) = stripRng (noteScanStep b n) := by
  obtain ⟨rb, rfl⟩ : ∃ rb, b = { a with rng := rb } := ⟨b.rng, eq_rng_update_of_stripRng hab⟩
  unfold noteScanStep
  dsimp only
  simp only [handleNoteMutation_id n hn]
  split_ifs <;> rfl

/-- The hold end-condition pass depends only on the erased view. -/
theorem holdEndPass_stripRng (a b : GameState) (hab : stripRng a = stripRng b) :
    stripRng (holdEndPass a) = stripRng (holdEndPass b) := by
  unfold holdEndPass
  have hids : a.activeHoldNoteIds = b.activeHoldNoteIds := by
    have h2 := congrArg GameState.activeHoldNoteIds hab
    simpa [stripRng] using h2
  rw [← hids]
  exact foldl_stripRng_cong holdEndStep (fun _ => True)
    (fun a2 b2 x _ h2 => holdEndStep_stripRng a2 b2 x h2)
    a.activeHoldNoteIds (fun _ _ => trivial) a b hab

/-- The note-head scan pass over notes without mutation kinds depends only
on the erased view. -/
theorem noteScanPass_stripRng (a b : GameState) (hab : stripRng a = stripRng b)
    (hm : noMut a.notes) :
    stripRng (noteScanPass a) = stripRng (noteScanPass b) := by
  unfold noteScanPass
  have hnotes : a.notes = b.notes := by
    have h2 := congrArg GameState.notes hab
    simpa [stripRng] using h2
  rw [← hnotes]
  exact foldl_stripRng_cong noteScanStep (fun n => n.mutationType = none)
    (fun a2 b2 x hx h2 => noteScanStep_stripRng a2 b2 x hx h2)
    a.notes hm a b hab

/-- The tick on a round without mutation kinds depends only on the erased
view. -/
theorem tick_stripRng (duration : Int) (ae : Bool) (nt : Int) (a b : GameState)
    (hab : stripRng a = stripRng b) (hm : noMut a.notes) :
    stripRng (tick duration ae nt a) = stripRng (tick duration ae nt b) := by
  obtain ⟨rb, rfl⟩ : ∃ rb, b = { a with rng := rb } := ⟨b.rng, eq_rng_update_of_stripRng hab⟩
  unfold tick
  dsimp only
  split_ifs <;>
    first
      | rfl
      | exact noteScanPass_stripRng _ _
          (holdEndPass_stripRng { a with currentTime := nt }
            { a with currentTime := nt, rng := rb } rfl)
          (noMut_holdEndPass _ hm)

/-- The release handler depends only on the erased view. -/
theorem processRelease_stripRng (inputId : Nat) (a b : GameState)
    (hab : stripRng a = stripRng b) :
    stripRng (processRelease inputId a) = stripRng (processRelease inputId b) := by
  obtain ⟨rb, rfl⟩ : ∃ rb, b = { a with rng := rb } := ⟨b.rng, eq_rng_update_of_stripRng hab⟩
  unfold processRelease
  dsimp only
  split_ifs <;>
    first
      | rfl
      | exact foldl_stripRng_cong releaseStep (fun _ => True)
          (fun a2 b2 x _ h2 => releaseStep_stripRng a2 b2 x h2)
          _ (fun _ _ => trivial) _ _ rfl

set_option maxHeartbeats 1000000 in
/-- The press handler on a round without mutation kinds depends only on the
erased view. -/
theorem processHit_stripRng (settings : GameSettings) (laneIndex keyName : Option Nat)
    (inputId : Nat) (a b : GameState) (hab : stripRng a = stripRng b)
    (hm : noMut a.notes) :
    stripRng (processHit settings laneIndex keyName inputId a) =
      stripRng (processHit settings laneIndex keyName inputId b) := by
  obtain ⟨rb, rfl⟩ : ∃ rb, b = { a with rng := rb } := ⟨b.rng, eq_rng_update_of_stripRng hab⟩
  unfold processHit
  dsimp only
  cases hlane : resolveTargetLane settings laneIndex keyName with
  | none => split_ifs <;> rfl
  | some targetLane =>
    dsimp only
    cases hpick : pickBest a.currentTime
        (collectCandidates settings targetLane a.currentTime a.notes) with
    | none => split_ifs <;> rfl
    | some target =>
      dsimp only
      have hmt : target.mutationType = none :=
        hm target (mem_collectCandidates _ _ _ _ target (pickBest_spec _ _ target hpick).1)
      have hfil : ∀ p ∈ a.notes.filter (fun n => decide (syncMatch target.time n)),
          p.mutationType = none := fun p hp => hm p (List.mem_of_mem_filter hp)
      simp only [handleNoteMutation_id target hmt, applySyncHits]
      rcases hsm2 : target.speedMultiplier with _ | v <;>
        simp only [hsm2] <;> split_ifs <;> (try dsimp only) <;>
        first
          | rfl
          | (simp only [foldl_handleNoteMutation_none _ hfil]
             rfl)

/-- One trace event on a round without mutation kinds depends only on the
erased view. -/
theorem stepEvent_stripRng (settings : GameSettings) (duration : Int) (e : InputEvent)
    (a b : GameState) (hab : stripRng a = stripRng b) (hm : noMut a.notes) :
    stripRng (stepEvent settings duration a e) =
      stripRng (stepEvent settings duration b e) := by
  cases e with
  | press laneIndex keyName inputId =>
    exact processHit_stripRng settings laneIndex keyName inputId a b hab hm
  | release inputId => exact processRelease_stripRng inputId a b hab
  | tick ae nt => exact tick_stripRng duration ae nt a b hab hm

/-- One trace event keeps the absence of mutation kinds. -/
theorem noMut_stepEvent (settings : GameSettings) (duration : Int) (e : InputEvent)
    (s : GameState) (h : noMut s.notes) :
    noMut (stepEvent settings duration s e).notes := by
  cases e with
  | press laneIndex keyName inputId =>
    exact noMut_processHit settings laneIndex keyName inputId s h
  | release inputId => exact noMut_processRelease inputId s h
  | tick ae nt => exact noMut_tick duration ae nt s h

/-- A whole trace on a round without mutation kinds depends only on the
erased view of the start state. -/
theorem runTrace_stripRng (settings : GameSettings) (duration : Int)
    (trace : List InputEvent) (a b : GameState)
    (hab : stripRng a = stripRng b) (hm : noMut a.notes) :
    stripRng (runTrace settings duration a trace) =
      stripRng (runTrace settings duration b trace) := by
  induction trace generalizing a b with
  | nil => exact hab
  | cons e rest ih =>
    unfold runTrace
    rw [List.foldl_cons, List.foldl_cons]
    exact ih (stepEvent settings duration a e) (stepEvent settings duration b e)
      (stepEvent_stripRng settings duration e a b hab hm)
      (noMut_stepEvent settings duration e a hm)

/-- C2 counterexample: the same beatmap (a Tap with a one-note Tap
mutation) and the same input trace, replayed in bound-keys mode from two
restarts that draw different random lanes for the spawned note, end with
different scores (200, with the spawned note hit on lane 0, against 100
with it spawned on lane 1 and auto-missed): handleNoteMutation draws the
spawned lanes from Math.random, so the simulation core does hide
randomness and restarting need not reproduce the judgement sequence. -/
theorem restart_determinism_counterexample :
    (runTrace settingsFour 60000 (handleRestart mutMap [0]) mutTrace).score.score = 200 ∧
    (runTrace settingsFour 60000 (handleRestart mutMap [1]) mutTrace).score.score = 100 ∧
    ¬ (runTrace settingsFour 60000 (handleRestart mutMap [0]) mutTrace).score =
        (runTrace settingsFour 60000 (handleRestart mutMap [1]) mutTrace).score := by
  decide

/-- C2 amended: for a beatmap in which no note has a mutation kind, the
round is deterministic: two runs over identical input traces - restarts
included - agree on everything except the unconsumed random stream
(judgement sequence, score state, combo, clock, held inputs), whatever
random lane choices each run would have drawn.  With mutation notes this
fails as the counterexample shows. -/
theorem run_deterministic_without_mutation
    (settings : GameSettings) (beatmap : Beatmap) (duration : Int)
    (trace : List InputEvent) (rng1 rng2 : List Nat)
    (hmut : ∀ n ∈ beatmap.notes, n.mutationType = none) :
    stripRng (runTrace settings duration (handleRestart beatmap rng1) trace) =
      stripRng (runTrace settings duration (handleRestart beatmap rng2) trace) := by
  have hm : noMut (handleRestart beatmap rng1).notes := by
    intro m hm2
    unfold handleRestart sortByTime at hm2
    dsimp only at hm2
    rcases List.mem_map.mp ((mem_sortBy _ _ _).mp hm2) with ⟨n0, hn0, rfl⟩
    exact hmut n0 hn0
  exact runTrace_stripRng settings duration trace _ _ rfl hm

/-- Witness for the amended C2: the mutation-free Tap beatmap replayed over
the same trace from two different random streams. -/
theorem run_deterministic_without_mutation_witness :
    stripRng (runTrace settingsAll 60000 (handleRestart tapMap [5]) mutTrace) =
      stripRng (runTrace settingsAll 60000 (handleRestart tapMap [9]) mutTrace) :=
  run_deterministic_without_mutation settingsAll tapMap 60000 mutTrace [5] [9] (by decide)

end Rusheb
